import Mathlib

/-!
Verification of the lottery-drum physics engine (physics.js).

The engine keeps a list of balls inside a circular container, agitates them
with a turbulence force field, and expels them one at a time through a
vertical exit channel.  The definitions below are a shallow embedding of the
engine's state and operations; scalar arithmetic is idealized over a linear
ordered field (instantiated at the rationals for executable witnesses and at
the reals for the operations that take square roots).
-/

namespace Lottery

/-- Collision category of an ordinary ball (source constant CAT_BALL). -/
def CAT_BALL : ℕ := 0x0001

/-- Collision category of walls, channel walls and gates (source constant CAT_WALL). -/
def CAT_WALL : ℕ := 0x0002

/-- Collision category of a ball being ejected (source constant CAT_EXITING). -/
def CAT_EXITING : ℕ := 0x0004

/-- Matter.js collision rule: two bodies collide when each one's category
intersects the other's mask (the solver is a black box; this is its
documented collision-filter contract, used by the spec's category claims). -/
def canCollide (catA maskA catB maskB : ℕ) : Bool :=
  decide (catA &&& maskB ≠ 0) && decide (catB &&& maskA ≠ 0)

/-- Ejection phase of a ball (source strings 'rising' / 'entering' /
'upChannel'; `Phase.none` stands for the unset property before ejection). -/
inductive Phase where
  | none
  | rising
  | entering
  | upChannel
  deriving DecidableEq

/-- A ball body: identity, solver-owned position/velocity, accumulated force,
ejection bookkeeping, collision filter and material parameters
(source: properties set in createBalls / ejectOneBall / guideBallToExit). -/
structure Ball (α : Type) where
  name : String
  x : α
  y : α
  vx : α
  vy : α
  fx : α
  fy : α
  isExiting : Bool
  hasExited : Bool
  exitPhase : Phase
  exitTimer : α
  category : ℕ
  mask : ℕ
  friction : α
  frictionAir : α
  restitution : α
  seed : α
  deriving DecidableEq

/-- The exit channel rectangle (source variable exitChannel:
x, topY, bottomY, width). -/
structure Channel (α : Type) where
  x : α
  topY : α
  bottomY : α
  width : α
  deriving DecidableEq

/-- Module state of the engine (the source module's mutable variables that
the verified operations read or write). -/
structure SimState (α : Type) where
  balls : List (Ball α)
  containerCenter : α × α
  containerRadius : α
  exitChannel : Channel α
  containerSealed : Bool
  turbulenceActive : Bool
  turbulenceTime : α
  swirlMultiplier : α
  deriving DecidableEq

/-- A static rectangular body as produced by the geometry builder
(position, half extents, static flag, collision filter, label). -/
structure BodyDef (α : Type) where
  x : α
  y : α
  w : α
  h : α
  isStatic : Bool
  category : ℕ
  mask : ℕ
  label : String
  deriving DecidableEq

/-- buildExitChannelWalls: the two channel side walls and the channelStopper
rectangle at the channel's container-side opening (source lines: leftWall /
rightWall with mask CAT_EXITING, stopper with mask CAT_BALL). -/
def buildExitChannelWalls {α : Type} [LinearOrderedField α] (ch : Channel α) :
    BodyDef α × BodyDef α × BodyDef α :=
  let halfW := ch.width / 2
  let height := ch.bottomY - ch.topY
  let midY := (ch.topY + ch.bottomY) / 2
  let leftWall : BodyDef α :=
    { x := ch.x - halfW - 4, y := midY, w := 8, h := height,
      isStatic := true, category := CAT_WALL, mask := CAT_EXITING,
      label := "exitWall" }
  let rightWall : BodyDef α :=
    { x := ch.x + halfW + 4, y := midY, w := 8, h := height,
      isStatic := true, category := CAT_WALL, mask := CAT_EXITING,
      label := "exitWall" }
  let stopper : BodyDef α :=
    { x := ch.x, y := ch.bottomY, w := ch.width + 16, h := 8,
      isStatic := true, category := CAT_WALL, mask := CAT_BALL,
      label := "channelStopper" }
  (leftWall, rightWall, stopper)

/-- buildExitGate: the removable bar at the channel top
(source: category CAT_WALL, mask CAT_EXITING, label 'exitGate'). -/
def buildExitGate {α : Type} [LinearOrderedField α] (ch : Channel α) : BodyDef α :=
  { x := ch.x, y := ch.topY, w := ch.width + 16, h := 8,
    isStatic := true, category := CAT_WALL, mask := CAT_EXITING,
    label := "exitGate" }

/-- Collision filter given to an ordinary ball in createBalls:
category CAT_BALL, mask CAT_BALL or CAT_WALL. -/
def ballFilter : ℕ × ℕ := (CAT_BALL, CAT_BALL ||| CAT_WALL)

/-- Collision filter installed on a ball by ejectOneBall:
category CAT_EXITING, mask CAT_WALL. -/
def exitingFilter : ℕ × ℕ := (CAT_EXITING, CAT_WALL)

/-- A ball is available for selection when it is neither exiting nor exited
(source: balls.filter of ejectOneBall). -/
def eligible {α : Type} (b : Ball α) : Bool := !b.isExiting && !b.hasExited

/-- Squared Euclidean distance from a ball to the exit point, the comparator
key of ejectOneBall (exitX = exitChannel.x, exitY = containerCenter.y -
containerRadius). -/
def exitDist2 {α : Type} [LinearOrderedField α] (st : SimState α) (b : Ball α) : α :=
  (b.x - st.exitChannel.x) ^ 2 + (b.y - (st.containerCenter.2 - st.containerRadius)) ^ 2

/-- Index (and key value) of the eligible ball with the least key, ties
resolved to the earliest index.  This models
`balls.filter(eligible).sort((a,b) => key a - key b)[0]`: JS Array sort is
stable (ES2019), so the first element of the sorted array is the earliest
eligible ball attaining the minimum key. -/
def bestStep {α : Type} [LinearOrderedField α] (key : Ball α → α) (b : Ball α) :
    Option (ℕ × α) → Option (ℕ × α)
  | Option.none => if eligible b then some (0, key b) else Option.none
  | some (j, k) =>
    if eligible b then
      if key b ≤ k then some (0, key b) else some (j + 1, k)
    else some (j + 1, k)

def bestIdx {α : Type} [LinearOrderedField α] (key : Ball α → α) :
    List (Ball α) → Option (ℕ × α)
  | [] => Option.none
  | b :: t => bestStep key b (bestIdx key t)

/-- The mutation ejectOneBall performs on the selected ball: mark it
isExiting, phase rising, timer reset, collision filter switched to
CAT_EXITING/CAT_WALL, frictionAir 0.02. -/
def markExiting {α : Type} [LinearOrderedField α] (b : Ball α) : Ball α :=
  { b with isExiting := true, exitPhase := Phase.rising, exitTimer := 0,
           category := CAT_EXITING, mask := CAT_WALL, frictionAir := 0.02 }

/-- Replace the ball at a given index by the image under `f` (JS mutates the
selected ball in place inside the balls array). -/
def setBall {α : Type} (f : Ball α → Ball α) : ℕ → List (Ball α) → List (Ball α)
  | _, [] => []
  | 0, b :: t => f b :: t
  | n + 1, b :: t => b :: setBall f n t

/-- ejectOneBall: select the eligible ball nearest to the exit point and mark
it for ejection.  The second component models the request's outcome:
`Option.none` means the callback was invoked immediately with null (no
eligible ball, no state change); `some i` means guidance was started on the
ball at index `i` (the callback fires later, on exit, in guideStep). -/
def ejectOneBall {α : Type} [LinearOrderedField α] (st : SimState α) :
    SimState α × Option ℕ :=
  match bestIdx (exitDist2 st) st.balls with
  | Option.none => (st, Option.none)
  | some (i, _) => ({ st with balls := setBall markExiting i st.balls }, some i)

/-- The index ejectOneBall selects, if any. -/
def ejectSelect {α : Type} [LinearOrderedField α] (st : SimState α) : Option ℕ :=
  (bestIdx (exitDist2 st) st.balls).map Prod.fst

/-- Index of the first eligible ball carrying a given name. -/
def findEligibleNamed {α : Type} (n : String) : List (Ball α) → Option ℕ
  | [] => Option.none
  | b :: t =>
    if eligible b = true ∧ b.name = n then some 0
    else (findEligibleNamed n t).map Nat.succ

/-- Modelled from the spec: `ejectSpecificBall(name, callback)` is part of
the engine's public interface but its body is not in the repository snapshot
(only the changelog and the spec describe it).  Per the spec it selects the
first ball whose name matches among all non-ejecting, non-exited balls,
ejects it through the same phased guidance as ejectOneBall (hence the shared
`markExiting`), and the callback receives the ejected name, or null when no
ball matches. -/
def ejectSpecificBall {α : Type} [LinearOrderedField α] (st : SimState α) (n : String) :
    SimState α × Option ℕ :=
  match findEligibleNamed n st.balls with
  | Option.none => (st, Option.none)
  | some i => ({ st with balls := setBall markExiting i st.balls }, some i)

/-- Number of balls carrying a given name (used to express that a removed
ball never reappears). -/
def nameCount {α : Type} (n : String) : List (Ball α) → ℕ
  | [] => 0
  | b :: t => (if b.name = n then 1 else 0) + nameCount n t

/-- A concrete rational-valued ball for witnesses (material parameters as in
createBalls). -/
def mkBall (n : String) (px py : ℚ) (ex : Bool) : Ball ℚ :=
  { name := n, x := px, y := py, vx := 0, vy := 0, fx := 0, fy := 0,
    isExiting := ex, hasExited := false, exitPhase := Phase.none, exitTimer := 0,
    category := CAT_BALL, mask := CAT_BALL ||| CAT_WALL,
    friction := 0.05, frictionAir := 0.01, restitution := 0.3, seed := 0 }

/-- Concrete state for the ejectOneBall selection witness: the exit point is
(100, 160); ball A sits on it but is already exiting, balls B and C are
eligible and equidistant from it. -/
def st1 : SimState ℚ :=
  { balls := [mkBall "A" 100 160 true, mkBall "B" 100 170 false, mkBall "C" 100 150 false],
    containerCenter := (100, 300), containerRadius := 140,
    exitChannel := { x := 100, topY := 50, bottomY := 160, width := 46 },
    containerSealed := true, turbulenceActive := false,
    turbulenceTime := 0, swirlMultiplier := 1 }

/-- Concrete state for the empty-eligible witness: its only ball is already
exiting. -/
def st6 : SimState ℚ :=
  { balls := [mkBall "A" 0 0 true],
    containerCenter := (100, 300), containerRadius := 140,
    exitChannel := { x := 100, topY := 50, bottomY := 160, width := 46 },
    containerSealed := true, turbulenceActive := false,
    turbulenceTime := 0, swirlMultiplier := 1 }

/-- Concrete state for the ejectSpecificBall witness: the first ball named B
is already exiting, the next B is at index 2. -/
def st10 : SimState ℚ :=
  { balls := [mkBall "B" 0 0 true, mkBall "A" 1 0 false,
              mkBall "B" 2 0 false, mkBall "B" 3 0 false],
    containerCenter := (100, 300), containerRadius := 140,
    exitChannel := { x := 100, topY := 50, bottomY := 160, width := 46 },
    containerSealed := true, turbulenceActive := false,
    turbulenceTime := 0, swirlMultiplier := 1 }

/-- Source constant TURBULENCE_SPEED_LIMIT: maximum ball speed during
turbulence. -/
def turbulenceSpeedLimit : ℝ := 12

/-- Source constant VORTEX_OFFSET_RATIO. -/
def vortexOffsetRatio : ℝ := 0.35

/-- Source constant VORTEX_BLEND_RATIO. -/
def vortexBlendRatio : ℝ := 0.1

/-- Source constant SWIRL_BASE_STRENGTH. -/
def swirlBaseStrength : ℝ := 0.0025

/-- Source constant FOUNTAIN_BASE_STRENGTH. -/
def fountainBaseStrength : ℝ := 0.0035

/-- Source constant NOISE_TIME_SCALE. -/
def noiseTimeScale : ℝ := 0.006

/-- Source constant BURST_PROBABILITY. -/
def burstProbability : ℝ := 0.008

/-- Source constant BURST_FORCE_MIN. -/
def burstForceMin : ℝ := 0.005

/-- Source constant BURST_FORCE_RANGE. -/
def burstForceRange : ℝ := 0.005

/-- Source constant CENTERING_EDGE_RATIO. -/
def centeringEdgeRatio : ℝ := 0.85

/-- Source constant CENTERING_STRENGTH. -/
def centeringStrength : ℝ := 0.003

/-- Source constant RISING_SPEED_LIMIT. -/
def risingSpeedLimit : ℝ := 6

/-- Source constant RISING_FORCE_BASE. -/
def risingForceBase : ℝ := 0.004

/-- Source constant RISING_FORCE_RAMP. -/
def risingForceRamp : ℝ := 0.004

/-- Source constant RISING_HORZ_BASE. -/
def risingHorzBase : ℝ := 0.0003

/-- Source constant RISING_HORZ_RAMP. -/
def risingHorzRamp : ℝ := 0.0005

/-- Source constant RISING_RAMP_DURATION (ms). -/
def risingRampDuration : ℝ := 2000

/-- Source constant CHANNEL_FORCE_HORZ. -/
def channelForceHorz : ℝ := 0.001

/-- Source constant CHANNEL_FORCE_UP. -/
def channelForceUp : ℝ := 0.006

/-- Source constant BOUNDARY_HARD_RATIO. -/
def boundaryHardRatio : ℝ := 0.92

/-- Source constant BOUNDARY_TELEPORT_RATIO. -/
def boundaryTeleportRatio : ℝ := 0.8

/-- limitSpeed: rescale the velocity vector proportionally when the speed
exceeds the cap (source computes scale = maxSpeed / speed). -/
noncomputable def limitSpeed (maxSpeed : ℝ) (b : Ball ℝ) : Ball ℝ :=
  let speed := Real.sqrt (b.vx ^ 2 + b.vy ^ 2)
  if maxSpeed < speed then
    { b with vx := b.vx * (maxSpeed / speed), vy := b.vy * (maxSpeed / speed) }
  else b

/-- Body.applyForce of the black-box solver: accumulate into the force
fields; position and velocity change only in the solver step. -/
def applyForce (b : Ball ℝ) (gx gy : ℝ) : Ball ℝ :=
  { b with fx := b.fx + gx, fy := b.fy + gy }

/-- calcVortexForce: dual off-center vortex tangential force, linearly
blended across the container midline (JS sqrt(...) || 1 becomes an
if-zero-then-one guard). -/
noncomputable def calcVortexForce (ballX ballY ccx ccy R mult : ℝ) : ℝ × ℝ :=
  let vortexOffsetX := R * vortexOffsetRatio
  let dx := ballX - ccx
  let strength := swirlBaseStrength * mult
  let vdxL := ballX - (ccx - vortexOffsetX)
  let vdyL := ballY - ccy
  let vdistL0 := Real.sqrt (vdxL * vdxL + vdyL * vdyL)
  let vdistL := if vdistL0 = 0 then 1 else vdistL0
  let txL := vdyL / vdistL * strength
  let tyL := -vdxL / vdistL * strength
  let vdxR := ballX - (ccx + vortexOffsetX)
  let vdyR := ballY - ccy
  let vdistR0 := Real.sqrt (vdxR * vdxR + vdyR * vdyR)
  let vdistR := if vdistR0 = 0 then 1 else vdistR0
  let txR := -vdyR / vdistR * strength
  let tyR := vdxR / vdistR * strength
  let blendWidth := R * vortexBlendRatio
  let blend := min 1 (max 0 ((dx + blendWidth) / (2 * blendWidth)))
  (txL * (1 - blend) + txR * blend, tyL * (1 - blend) + tyR * blend)

/-- calcNoiseForce: deterministic pseudo-periodic perturbation from elapsed
turbulence time and the ball's seed. -/
noncomputable def calcNoiseForce (mult time seed : ℝ) : ℝ × ℝ :=
  let t := time * noiseTimeScale * mult
  ((Real.sin (t + seed) * Real.cos (t * 1.7 + seed * 0.7) * 0.002
      + Real.sin (t * 2.3 + seed * 1.5) * 0.001) * mult,
   (Real.cos (t * 1.1 + seed * 1.2) * Real.sin (t * 1.9 + seed) * 0.002
      + Real.cos (t * 2.7 + seed * 0.8) * 0.001) * mult)

/-- calcBurstForce: random gust.  The three source Math.random() samples are
supplied explicitly; JS `random >= probability*mult` means no burst. -/
noncomputable def calcBurstForce (mult : ℝ) (rnd : ℝ × ℝ × ℝ) : ℝ × ℝ :=
  if burstProbability * mult ≤ rnd.1 then (0, 0)
  else
    let angle := rnd.2.1 * (2 * Real.pi)
    let force := (burstForceMin + rnd.2.2 * burstForceRange) * mult
    (Real.cos angle * force, Real.sin angle * force)

/-- calcCenteringForce: push back toward the center once past the edge
ratio. -/
noncomputable def calcCenteringForce (R nx ny dist : ℝ) : ℝ × ℝ :=
  let edgeRatio := dist / (R * centeringEdgeRatio)
  if edgeRatio ≤ 1 then (0, 0)
  else
    let push := (edgeRatio - 1) * centeringStrength
    (-nx * push, -ny * push)

/-- calcFountainForce: upward force on the lower half, linear in depth. -/
noncomputable def calcFountainForce (mult ballY ccy R : ℝ) : ℝ :=
  let belowCenter := ballY - ccy
  if belowCenter ≤ 0 then 0
  else
    let ratio := min (belowCenter / R) 1;
    -ratio * fountainBaseStrength * mult

/-- The per-ball body of applyTurbulence: skip exiting balls, skip balls
within 1 px of the center, otherwise accumulate the five force terms and
clamp the speed to the turbulence cap. -/
noncomputable def turbStep (ccx ccy R mult t : ℝ) (rnd : ℝ × ℝ × ℝ) (b : Ball ℝ) :
    Ball ℝ :=
  if b.isExiting then b
  else
    let dx := b.x - ccx
    let dy := b.y - ccy
    let dist := Real.sqrt (dx * dx + dy * dy)
    if dist < 1 then b
    else
      let nx := dx / dist
      let ny := dy / dist
      let vortex := calcVortexForce b.x b.y ccx ccy R mult
      let noise := calcNoiseForce mult t b.seed
      let burst := calcBurstForce mult rnd
      let centering := calcCenteringForce R nx ny dist
      let fountainY := calcFountainForce mult b.y ccy R
      limitSpeed turbulenceSpeedLimit
        (applyForce b (vortex.1 + noise.1 + centering.1 + burst.1)
          (vortex.2 + noise.2 + centering.2 + burst.2 + fountainY))

/-- Apply an index-aware ball transformation to every entry of the list,
starting at index k. -/
def mapIdxFrom {α : Type} (f : ℕ → Ball α → Ball α) : ℕ → List (Ball α) → List (Ball α)
  | _, [] => []
  | k, b :: t => f k b :: mapIdxFrom f (k + 1) t

/-- applyTurbulence: while the turbulence is active, advance the turbulence
clock and run turbStep over every ball; the burst randomness of each ball is
drawn from the oracle `rnd` at the ball's index. -/
noncomputable def applyTurbulence (delta : ℝ) (rnd : ℕ → ℝ × ℝ × ℝ)
    (st : SimState ℝ) : SimState ℝ :=
  if st.turbulenceActive = false then st
  else
    let t := st.turbulenceTime + delta
    { st with turbulenceTime := t,
              balls := mapIdxFrom (fun i b =>
                turbStep st.containerCenter.1 st.containerCenter.2
                  st.containerRadius st.swirlMultiplier t (rnd i) b) 0 st.balls }

/-- The per-ball boundary hard correction inside update: non-exiting balls
found beyond boundaryHardRatio of the radius are teleported radially inward
to boundaryTeleportRatio of the radius and any outward radial velocity
component is removed. -/
noncomputable def clampBall (ccx ccy R : ℝ) (b : Ball ℝ) : Ball ℝ :=
  if b.isExiting = true ∨ b.hasExited = true then b
  else
    let dx := b.x - ccx
    let dy := b.y - ccy
    let dist := Real.sqrt (dx * dx + dy * dy)
    if R * boundaryHardRatio < dist then
      let nx := dx / dist
      let ny := dy / dist
      let b1 := { b with x := ccx + nx * R * boundaryTeleportRatio,
                         y := ccy + ny * R * boundaryTeleportRatio }
      let vDot := b.vx * nx + b.vy * ny
      if 0 < vDot then { b1 with vx := b.vx - nx * vDot, vy := b.vy - ny * vDot }
      else b1
    else b

/-- The boundary-enforcement pass of update: runs only on a sealed
container. -/
noncomputable def clampPass (st : SimState ℝ) : SimState ℝ :=
  if st.containerSealed then
    { st with balls :=
        List.map (clampBall st.containerCenter.1 st.containerCenter.2
          st.containerRadius) st.balls }
  else st

/-- Engine.update of the black-box rigid-body solver: it may move any ball
and rewrite its velocity (the oracles npos / nvel give the post-integration
values) and it consumes the accumulated forces; it never touches names,
flags, phases or filters. -/
def solverStep (npos nvel : ℕ → ℝ × ℝ) (st : SimState ℝ) : SimState ℝ :=
  { st with balls := mapIdxFrom (fun i b =>
      { b with x := (npos i).1, y := (npos i).2,
               vx := (nvel i).1, vy := (nvel i).2, fx := 0, fy := 0 }) 0 st.balls }

/-- update(delta): solver step, then turbulence, then the sealed-boundary
hard clamp (source function update). -/
noncomputable def update (npos nvel : ℕ → ℝ × ℝ) (delta : ℝ)
    (rnd : ℕ → ℝ × ℝ × ℝ) (st : SimState ℝ) : SimState ℝ :=
  clampPass (applyTurbulence delta rnd (solverStep npos nvel st))

/-- Remove the list entry at the given index (JS balls.splice(idx, 1)). -/
def removeBall {α : Type} : ℕ → List (Ball α) → List (Ball α)
  | _, [] => []
  | 0, _ :: t => t
  | n + 1, b :: t => b :: removeBall n t

/-- One tick of the steer closure inside guideBallToExit, acting on the
guided ball: a completed ball is left untouched (the interval only clears
itself); otherwise the timer advances and the phase branch applies its
guidance force, possibly transitions, and in upChannel reports the exit
condition pos.y < exitChannel.topY - 30 through the Boolean flag. -/
noncomputable def steerBall (ch : Channel ℝ) (enterY enterRadius : ℝ)
    (b0 : Ball ℝ) : Ball ℝ × Bool :=
  if b0.hasExited then (b0, false)
  else
    let b := { b0 with exitTimer := b0.exitTimer + 16 }
    match b.exitPhase with
    | Phase.rising =>
      let timeFactor := min (b.exitTimer / risingRampDuration) 1
      let b1 := applyForce b
        ((ch.x - b.x) * (risingHorzBase + timeFactor * risingHorzRamp))
        (-(risingForceBase + timeFactor * risingForceRamp))
      let b2 := limitSpeed risingSpeedLimit b1
      let dx := b2.x - ch.x
      let dy := b2.y - enterY
      if Real.sqrt (dx * dx + dy * dy) < enterRadius then
        ({ b2 with exitPhase := Phase.entering }, false)
      else (b2, false)
    | Phase.entering =>
      let b1 := applyForce b ((ch.x - b.x) * channelForceHorz) (-channelForceUp)
      if b1.y < enterY - 5 then ({ b1 with exitPhase := Phase.upChannel }, false)
      else (b1, false)
    | Phase.upChannel =>
      let b1 := applyForce b ((ch.x - b.x) * channelForceHorz) (-channelForceUp)
      if b1.y < ch.topY - 30 then ({ b1 with hasExited := true }, true)
      else (b1, false)
    | Phase.none => (b, false)

/-- One guidance tick of the ball at index i: when the exit condition fires
the ball is marked hasExited, removed from the world and from the balls
array, and the completion callback receives its name (second component);
otherwise the mutated ball is written back and no callback fires. -/
noncomputable def guideStep (st : SimState ℝ) (i : ℕ) : SimState ℝ × Option String :=
  match st.balls[i]? with
  | Option.none => (st, Option.none)
  | some b =>
    let r := steerBall st.exitChannel (st.containerCenter.2 - st.containerRadius)
      (st.exitChannel.width * 0.8) b
    if r.2 then ({ st with balls := removeBall i st.balls }, some r.1.name)
    else ({ st with balls := setBall (fun _ => r.1) i st.balls }, Option.none)

/-- The engine operations that can run after an ejection has started: a
guidance tick, a frame update (with its solver and randomness oracles), or
another ejection request. -/
inductive EngineOp where
  | guide (i : ℕ)
  | upd (npos nvel : ℕ → ℝ × ℝ) (delta : ℝ) (rnd : ℕ → ℝ × ℝ × ℝ)
  | eject
  | ejectNamed (n : String)

/-- Apply one engine operation to the state. -/
noncomputable def applyOp (op : EngineOp) (st : SimState ℝ) : SimState ℝ :=
  match op with
  | EngineOp.guide i => (guideStep st i).1
  | EngineOp.upd npos nvel delta rnd => update npos nvel delta rnd st
  | EngineOp.eject => (ejectOneBall st).1
  | EngineOp.ejectNamed n => (ejectSpecificBall st n).1

/-- Apply a sequence of engine operations in order. -/
noncomputable def applyOps (ops : List EngineOp) (st : SimState ℝ) : SimState ℝ :=
  ops.foldl (fun s op => applyOp op s) st

/-- Current speed of a ball (the quantity limitSpeed caps). -/
noncomputable def speedOf (b : Ball ℝ) : ℝ := Real.sqrt (b.vx ^ 2 + b.vy ^ 2)

/-- A concrete real-valued ball for witnesses. -/
noncomputable def mkBallR (n : String) (px py pvx pvy : ℝ) (ex exd : Bool)
    (ph : Phase) : Ball ℝ :=
  { name := n, x := px, y := py, vx := pvx, vy := pvy, fx := 0, fy := 0,
    isExiting := ex, hasExited := exd, exitPhase := ph, exitTimer := 0,
    category := CAT_BALL, mask := CAT_BALL ||| CAT_WALL,
    friction := 0.05, frictionAir := 0.01, restitution := 0.3, seed := 0 }

/-- A concrete real-valued exit channel for witnesses. -/
noncomputable def chR : Channel ℝ := { x := 0, topY := -180, bottomY := -100, width := 46 }

/-- Concrete state for the exiting-ball exemption witness. -/
noncomputable def st4 : SimState ℝ :=
  { balls := [mkBallR "E" 500 500 3 4 true false Phase.rising],
    containerCenter := (0, 0), containerRadius := 100, exitChannel := chR,
    containerSealed := true, turbulenceActive := true,
    turbulenceTime := 0, swirlMultiplier := 1 }

/-- Burst randomness oracle used by counterexamples and witnesses: the first
sample 1 is above every burst probability, so no burst fires. -/
noncomputable def rnd0 : ℕ → ℝ × ℝ × ℝ := fun _ => (1, 0, 0)

/-- Concrete state for the speed-cap counterexample: a non-exiting ball
sitting exactly on the container center with speed 100. -/
noncomputable def stC5 : SimState ℝ :=
  { balls := [mkBallR "F" 0 0 100 0 false false Phase.none],
    containerCenter := (0, 0), containerRadius := 100, exitChannel := chR,
    containerSealed := true, turbulenceActive := true,
    turbulenceTime := 0, swirlMultiplier := 1 }

/-- Concrete state for the amended speed-cap witness: a non-exiting ball 50
px from the center moving at speed 20. -/
noncomputable def stC5w : SimState ℝ :=
  { balls := [mkBallR "G" 50 0 20 0 false false Phase.none],
    containerCenter := (0, 0), containerRadius := 100, exitChannel := chR,
    containerSealed := true, turbulenceActive := true,
    turbulenceTime := 0, swirlMultiplier := 1 }

/-- Concrete state for the boundary-containment witness: a sealed container
of radius 100 centered at the origin, with a non-exiting ball at distance
120 moving outward. -/
noncomputable def st3w : SimState ℝ :=
  { balls := [mkBallR "I" 120 0 5 7 false false Phase.none],
    containerCenter := (0, 0), containerRadius := 100, exitChannel := chR,
    containerSealed := true, turbulenceActive := false,
    turbulenceTime := 0, swirlMultiplier := 1 }

/-- Solver position oracle for the containment witness. -/
noncomputable def pos3 : ℕ → ℝ × ℝ := fun _ => (120, 0)

/-- Solver velocity oracle for the containment witness. -/
noncomputable def vel3 : ℕ → ℝ × ℝ := fun _ => (5, 7)

/-- A concrete real-valued ball mid-ejection for witnesses. -/
noncomputable def mkBallR2 (n : String) (px py pvx pvy : ℝ) (ph : Phase) : Ball ℝ :=
  { name := n, x := px, y := py, vx := pvx, vy := pvy, fx := 0, fy := 0,
    isExiting := true, hasExited := false, exitPhase := ph, exitTimer := 0,
    category := CAT_EXITING, mask := CAT_WALL,
    friction := 0.05, frictionAir := 0.02, restitution := 0.3, seed := 0 }

/-- Concrete state for the guidance-exit witness: its single ball is in the
upChannel phase and has already risen past exitChannel.topY - 30
(chR.topY = -180, so the threshold is -210 and the ball is at -250). -/
noncomputable def st2w : SimState ℝ :=
  { balls := [mkBallR2 "H" 0 (-250) 0 (-5) Phase.upChannel],
    containerCenter := (0, 0), containerRadius := 100, exitChannel := chR,
    containerSealed := true, turbulenceActive := false,
    turbulenceTime := 0, swirlMultiplier := 1 }

/-- Source constant EXIT_GAP_MARGIN. -/
noncomputable def EXIT_GAP_MARGIN : ℝ := 24

/-- The exit channel width computed in layout:
max(30, configBallRadius * 2 + 8). -/
noncomputable def channelWidth (r : ℝ) : ℝ := max 30 (r * 2 + 8)

/-- The exit-gap half-angle computed in layout:
asin((channelWidth / 2 + EXIT_GAP_MARGIN) / containerRadius). -/
noncomputable def exitGapHalfAngle (R cw : ℝ) : ℝ :=
  Real.arcsin ((cw / 2 + EXIT_GAP_MARGIN) / R)

/-- The entry-gap center angle set in layout: PI + 0.4. -/
noncomputable def entryAngle : ℝ := Real.pi + 0.4

/-- The entry-gap half-angle set in layout: 0.4. -/
noncomputable def entryGapHalfAngle : ℝ := 0.4

/-- The exit-gap center angle used by buildCircularWall: 3 PI / 2. -/
noncomputable def exitCenterAngle : ℝ := 3 * Real.pi / 2

/-- normalizeAngle of the source, ((a % 2PI) + 2PI) % 2PI with the JS
truncated remainder: for every real a this equals the unique representative
of a modulo 2PI in the interval from 0 (inclusive) to 2PI (exclusive), which
is a - 2PI * floor(a / 2PI). -/
noncomputable def normalizeAngle (a : ℝ) : ℝ :=
  a - 2 * Real.pi * (⌊a / (2 * Real.pi)⌋ : ℤ)

/-- angularDistance of the source: the short way around between two angles
(between 0 and PI). -/
noncomputable def angularDistance (a b : ℝ) : ℝ :=
  if |normalizeAngle a - normalizeAngle b| > Real.pi then
    2 * Real.pi - |normalizeAngle a - normalizeAngle b|
  else |normalizeAngle a - normalizeAngle b|

/-- Claim C8: after layout the channel stopper is a static WALL-category body
sitting at the channel's container-side opening whose mask admits only BALL,
so ordinary balls collide with it while EXITING balls pass through; the exit
gate's mask admits only EXITING, so an ordinary ball never collides with the
gate while an EXITING ball does. -/
theorem stopper_and_gate_collision_masks (ch : Channel ℝ) :
    (buildExitChannelWalls ch).2.2.isStatic = true ∧
    (buildExitChannelWalls ch).2.2.category = CAT_WALL ∧
    (buildExitChannelWalls ch).2.2.mask = CAT_BALL ∧
    (buildExitChannelWalls ch).2.2.x = ch.x ∧
    (buildExitChannelWalls ch).2.2.y = ch.bottomY ∧
    canCollide ballFilter.1 ballFilter.2
      (buildExitChannelWalls ch).2.2.category (buildExitChannelWalls ch).2.2.mask = true ∧
    canCollide exitingFilter.1 exitingFilter.2
      (buildExitChannelWalls ch).2.2.category (buildExitChannelWalls ch).2.2.mask = false ∧
    (buildExitGate ch).isStatic = true ∧
    (buildExitGate ch).category = CAT_WALL ∧
    (buildExitGate ch).mask = CAT_EXITING ∧
    canCollide ballFilter.1 ballFilter.2
      (buildExitGate ch).category (buildExitGate ch).mask = false ∧
    canCollide exitingFilter.1 exitingFilter.2
      (buildExitGate ch).category (buildExitGate ch).mask = true := by
  refine ⟨rfl, rfl, rfl, rfl, rfl, ?_, ?_, rfl, rfl, rfl, ?_, ?_⟩
  · show canCollide CAT_BALL (CAT_BALL ||| CAT_WALL) CAT_WALL CAT_BALL = true
    decide
  · show canCollide CAT_EXITING CAT_WALL CAT_WALL CAT_BALL = false
    decide
  · show canCollide CAT_BALL (CAT_BALL ||| CAT_WALL) CAT_WALL CAT_EXITING = false
    decide
  · show canCollide CAT_EXITING CAT_WALL CAT_WALL CAT_EXITING = true
    decide

/-- A concrete exit-channel rectangle used for counterexamples. -/
def ch0 : Channel ℚ := { x := 100, topY := 50, bottomY := 200, width := 46 }

/-- Claim C9 counterexample: on a concrete layout the left channel side wall
has mask CAT_EXITING, not CAT_BALL, an ordinary ball does NOT collide with it
and an EXITING ball DOES — the opposite of the claim. -/
theorem sideWall_mask_counterexample :
    ¬ (buildExitChannelWalls ch0).1.mask = CAT_BALL ∧
    canCollide ballFilter.1 ballFilter.2
      (buildExitChannelWalls ch0).1.category (buildExitChannelWalls ch0).1.mask = false ∧
    canCollide exitingFilter.1 exitingFilter.2
      (buildExitChannelWalls ch0).1.category (buildExitChannelWalls ch0).1.mask = true := by
  exact ⟨by decide, by decide, by decide⟩

/-- Claim C9 (amended): the two channel side walls are static WALL-category
bodies whose mask admits only the EXITING category, so they let ordinary
balls pass through and block (collide with) EXITING balls. -/
theorem sideWalls_mask_exiting (ch : Channel ℝ) :
    (buildExitChannelWalls ch).1.isStatic = true ∧
    (buildExitChannelWalls ch).1.category = CAT_WALL ∧
    (buildExitChannelWalls ch).1.mask = CAT_EXITING ∧
    (buildExitChannelWalls ch).2.1.isStatic = true ∧
    (buildExitChannelWalls ch).2.1.category = CAT_WALL ∧
    (buildExitChannelWalls ch).2.1.mask = CAT_EXITING ∧
    canCollide ballFilter.1 ballFilter.2
      (buildExitChannelWalls ch).1.category (buildExitChannelWalls ch).1.mask = false ∧
    canCollide exitingFilter.1 exitingFilter.2
      (buildExitChannelWalls ch).1.category (buildExitChannelWalls ch).1.mask = true ∧
    canCollide ballFilter.1 ballFilter.2
      (buildExitChannelWalls ch).2.1.category (buildExitChannelWalls ch).2.1.mask = false ∧
    canCollide exitingFilter.1 exitingFilter.2
      (buildExitChannelWalls ch).2.1.category (buildExitChannelWalls ch).2.1.mask = true := by
  refine ⟨rfl, rfl, rfl, rfl, rfl, rfl, ?_, ?_, ?_, ?_⟩ <;>
    first
      | (show canCollide CAT_BALL (CAT_BALL ||| CAT_WALL) CAT_WALL CAT_EXITING = false
         decide)
      | (show canCollide CAT_EXITING CAT_WALL CAT_WALL CAT_EXITING = true
         decide)

/-- If bestIdx finds nothing, no entry of the list is eligible. -/
theorem bestIdx_none_no_eligible {α : Type} [LinearOrderedField α]
    (key : Ball α → α) (l : List (Ball α)) (h : bestIdx key l = Option.none) :
    ∀ (j : ℕ) (c : Ball α), l[j]? = some c → eligible c = false := by
  induction l with
  | nil => intro j c hj; simp at hj
  | cons b t ih =>
    intro j c hj
    simp only [bestIdx] at h
    rcases ht : bestIdx key t with _ | ⟨j0, k0⟩ <;> rw [ht] at h <;>
      simp only [bestStep] at h
    · by_cases he : eligible b
      · rw [if_pos he] at h; cases h
      · cases j with
        | zero =>
          simp only [List.getElem?_cons_zero, Option.some.injEq] at hj
          rw [← hj]; simpa using he
        | succ j' =>
          simp only [List.getElem?_cons_succ] at hj
          exact ih ht j' c hj
    · split_ifs at h

/-- All eligible-free lists yield no selection. -/
theorem bestIdx_eq_none {α : Type} [LinearOrderedField α]
    (key : Ball α → α) (l : List (Ball α)) (h : ∀ b ∈ l, eligible b = false) :
    bestIdx key l = Option.none := by
  induction l with
  | nil => rfl
  | cons b t ih =>
    have hb : eligible b = false := h b (List.mem_cons_self b t)
    have ht : bestIdx key t = Option.none :=
      ih (fun c hc => h c (List.mem_cons_of_mem b hc))
    simp [bestIdx, bestStep, ht, hb]

/-- Full characterisation of bestIdx: the returned index holds an eligible
ball whose key is minimal among all eligible entries, and strictly below the
key of every earlier eligible entry. -/
theorem bestIdx_spec {α : Type} [LinearOrderedField α]
    (key : Ball α → α) (l : List (Ball α)) :
    ∀ (i : ℕ) (k : α), bestIdx key l = some (i, k) →
      ∃ b, l[i]? = some b ∧ eligible b = true ∧ key b = k ∧
        (∀ (j : ℕ) (c : Ball α), l[j]? = some c → eligible c = true → k ≤ key c) ∧
        (∀ (j : ℕ) (c : Ball α), j < i → l[j]? = some c → eligible c = true → k < key c) := by
  induction l with
  | nil => intro i k h; simp [bestIdx] at h
  | cons b t ih =>
    intro i k h
    simp only [bestIdx] at h
    rcases ht : bestIdx key t with _ | ⟨j0, k0⟩ <;> rw [ht] at h <;>
      simp only [bestStep] at h
    · have hnone := bestIdx_none_no_eligible key t ht
      by_cases he : eligible b
      · rw [if_pos he] at h
        obtain ⟨rfl, rfl⟩ := Prod.mk.inj (Option.some.inj h)
        refine ⟨b, by simp, he, rfl, ?_, ?_⟩
        · intro j c hj hc
          cases j with
          | zero =>
            simp only [List.getElem?_cons_zero, Option.some.injEq] at hj
            rw [← hj]
          | succ j' =>
            simp only [List.getElem?_cons_succ] at hj
            rw [hnone j' c hj] at hc; cases hc
        · intro j c hlt; exact absurd hlt (Nat.not_lt_zero j)
      · rw [if_neg he] at h; cases h
    · obtain ⟨b0, hb0, hel0, hkey0, hmin0, hstrict0⟩ := ih j0 k0 ht
      by_cases he : eligible b
      · rw [if_pos he] at h
        by_cases hle : key b ≤ k0
        · rw [if_pos hle] at h
          obtain ⟨rfl, rfl⟩ := Prod.mk.inj (Option.some.inj h)
          refine ⟨b, by simp, he, rfl, ?_, ?_⟩
          · intro j c hj hc
            cases j with
            | zero =>
              simp only [List.getElem?_cons_zero, Option.some.injEq] at hj
              rw [← hj]
            | succ j' =>
              simp only [List.getElem?_cons_succ] at hj
              exact le_trans hle (hmin0 j' c hj hc)
          · intro j c hlt; exact absurd hlt (Nat.not_lt_zero j)
        · rw [if_neg hle] at h
          obtain ⟨rfl, rfl⟩ := Prod.mk.inj (Option.some.inj h)
          refine ⟨b0, by simpa using hb0, hel0, hkey0, ?_, ?_⟩
          · intro j c hj hc
            cases j with
            | zero =>
              simp only [List.getElem?_cons_zero, Option.some.injEq] at hj
              rw [← hj]; exact le_of_lt (lt_of_not_le hle)
            | succ j' =>
              simp only [List.getElem?_cons_succ] at hj
              exact hmin0 j' c hj hc
          · intro j c hlt hj hc
            cases j with
            | zero =>
              simp only [List.getElem?_cons_zero, Option.some.injEq] at hj
              rw [← hj]; exact lt_of_not_le hle
            | succ j' =>
              simp only [List.getElem?_cons_succ] at hj
              exact hstrict0 j' c (Nat.succ_lt_succ_iff.mp hlt) hj hc
      · rw [if_neg he] at h
        obtain ⟨rfl, rfl⟩ := Prod.mk.inj (Option.some.inj h)
        refine ⟨b0, by simpa using hb0, hel0, hkey0, ?_, ?_⟩
        · intro j c hj hc
          cases j with
          | zero =>
            simp only [List.getElem?_cons_zero, Option.some.injEq] at hj
            rw [← hj] at hc; rw [hc] at he; exact absurd rfl he
          | succ j' =>
            simp only [List.getElem?_cons_succ] at hj
            exact hmin0 j' c hj hc
        · intro j c hlt hj hc
          cases j with
          | zero =>
            simp only [List.getElem?_cons_zero, Option.some.injEq] at hj
            rw [← hj] at hc; rw [hc] at he; exact absurd rfl he
          | succ j' =>
            simp only [List.getElem?_cons_succ] at hj
            exact hstrict0 j' c (Nat.succ_lt_succ_iff.mp hlt) hj hc

/-- setBall rewrites exactly the targeted index. -/
theorem setBall_getElem_self {α : Type} (f : Ball α → Ball α) (l : List (Ball α)) :
    ∀ (i : ℕ) (b : Ball α), l[i]? = some b → (setBall f i l)[i]? = some (f b) := by
  induction l with
  | nil => intro i b hb; simp at hb
  | cons c t ih =>
    intro i b hb
    cases i with
    | zero =>
      simp only [List.getElem?_cons_zero, Option.some.injEq] at hb
      rw [← hb]; simp [setBall]
    | succ i' =>
      simp only [List.getElem?_cons_succ] at hb
      simpa [setBall] using ih i' b hb

/-- ejectOneBall on any state whose selection succeeds returns the marked
state and the selected index. -/
theorem ejectOneBall_eq_of_bestIdx {α : Type} [LinearOrderedField α]
    (st : SimState α) (i : ℕ) (k : α)
    (h : bestIdx (exitDist2 st) st.balls = some (i, k)) :
    ejectOneBall st = ({ st with balls := setBall markExiting i st.balls }, some i) := by
  simp [ejectOneBall, h]

/-- Claim C1: whenever ejectOneBall selects a ball, that ball is eligible
(in particular not already isExiting), its squared distance to the exit
point (exitChannel.x, containerCenter.y - containerRadius) is minimal among
all eligible balls, it is strictly closer than every earlier eligible ball
(so ties resolve to the earliest list position), and a second ejectOneBall
call on the resulting state never selects the same ball again. -/
theorem ejectOneBall_selects_nearest {α : Type} [LinearOrderedField α]
    (st : SimState α) (i : ℕ) (h : ejectSelect st = some i) :
    ∃ b, st.balls[i]? = some b ∧ eligible b = true ∧ b.isExiting = false ∧
      (∀ (j : ℕ) (c : Ball α), st.balls[j]? = some c → eligible c = true →
        exitDist2 st b ≤ exitDist2 st c) ∧
      (∀ (j : ℕ) (c : Ball α), j < i → st.balls[j]? = some c → eligible c = true →
        exitDist2 st b < exitDist2 st c) ∧
      ejectSelect (ejectOneBall st).1 ≠ some i := by
  rcases hbi : bestIdx (exitDist2 st) st.balls with _ | ⟨i', k⟩
  · rw [ejectSelect, hbi] at h; cases h
  · rw [ejectSelect, hbi, Option.map_some'] at h
    have hii : i' = i := Option.some.inj h
    subst hii
    obtain ⟨b, hb, hel, hkey, hmin, hstrict⟩ := bestIdx_spec (exitDist2 st) st.balls i' k hbi
    have hexit : b.isExiting = false := by
      have := hel; simp only [eligible, Bool.and_eq_true, Bool.not_eq_true'] at this
      exact this.1
    refine ⟨b, hb, hel, hexit, ?_, ?_, ?_⟩
    · intro j c hj hc; rw [hkey]; exact hmin j c hj hc
    · intro j c hlt hj hc; rw [hkey]; exact hstrict j c hlt hj hc
    · intro hcontra
      rw [ejectOneBall_eq_of_bestIdx st i' k hbi] at hcontra
      rcases hbi2 : bestIdx
          (exitDist2 { st with balls := setBall markExiting i' st.balls })
          (setBall markExiting i' st.balls) with _ | ⟨i2, k2⟩
      · rw [ejectSelect, hbi2] at hcontra; cases hcontra
      · rw [ejectSelect, hbi2, Option.map_some'] at hcontra
        have hi2 : i2 = i' := Option.some.inj hcontra
        subst hi2
        obtain ⟨b2, hb2, hel2, _, _, _⟩ :=
          bestIdx_spec _ (setBall markExiting i2 st.balls) i2 k2 hbi2
        have hset : (setBall markExiting i2 st.balls)[i2]? = some (markExiting b) :=
          setBall_getElem_self markExiting st.balls i2 b hb
        rw [hset] at hb2
        have hbb : b2 = markExiting b := (Option.some.inj hb2).symm
        rw [hbb] at hel2
        simp [eligible, markExiting] at hel2

/-- Claim C1 witness: on the concrete state st1 the selection picks index 1
(ball B): ball A sits on the exit point but is already exiting and is
skipped; balls B and C tie in squared distance and the earlier one wins. -/
theorem ejectOneBall_selects_nearest_witness :
    ejectSelect st1 = some 1 ∧
    ∃ b, st1.balls[1]? = some b ∧ eligible b = true ∧ b.isExiting = false ∧
      (∀ (j : ℕ) (c : Ball ℚ), st1.balls[j]? = some c → eligible c = true →
        exitDist2 st1 b ≤ exitDist2 st1 c) ∧
      (∀ (j : ℕ) (c : Ball ℚ), j < 1 → st1.balls[j]? = some c → eligible c = true →
        exitDist2 st1 b < exitDist2 st1 c) ∧
      ejectSelect (ejectOneBall st1).1 ≠ some 1 := by
  have h : ejectSelect st1 = some 1 := by
    norm_num [ejectSelect, st1, mkBall, bestIdx, bestStep, eligible, exitDist2]
  exact ⟨h, ejectOneBall_selects_nearest st1 1 h⟩

/-- Claim C6: when every ball is exiting or exited, ejectOneBall performs no
state change at all and reports a null callback result. -/
theorem ejectOneBall_empty_noop {α : Type} [LinearOrderedField α]
    (st : SimState α) (h : ∀ b ∈ st.balls, b.isExiting = true ∨ b.hasExited = true) :
    ejectOneBall st = (st, Option.none) := by
  have hnone : bestIdx (exitDist2 st) st.balls = Option.none := by
    refine bestIdx_eq_none _ _ (fun b hb => ?_)
    rcases h b hb with h1 | h1 <;> simp [eligible, h1]
  simp [ejectOneBall, hnone]

/-- Claim C6 witness: the concrete state st6 only holds an exiting ball and
ejectOneBall leaves it untouched. -/
theorem ejectOneBall_empty_noop_witness :
    (∀ b ∈ st6.balls, b.isExiting = true ∨ b.hasExited = true) ∧
    ejectOneBall st6 = (st6, Option.none) := by
  have h : ∀ b ∈ st6.balls, b.isExiting = true ∨ b.hasExited = true := by
    simp [st6, mkBall]
  exact ⟨h, ejectOneBall_empty_noop st6 h⟩

/-- findEligibleNamed returns the position of the first eligible ball with
the requested name. -/
theorem findEligibleNamed_spec {α : Type} (n : String) (l : List (Ball α)) :
    ∀ i, findEligibleNamed n l = some i →
      ∃ b, l[i]? = some b ∧ eligible b = true ∧ b.name = n ∧
        (∀ (j : ℕ) (c : Ball α), j < i → l[j]? = some c →
          ¬(eligible c = true ∧ c.name = n)) := by
  induction l with
  | nil => intro i h; simp [findEligibleNamed] at h
  | cons b t ih =>
    intro i h
    simp only [findEligibleNamed] at h
    by_cases hbn : eligible b = true ∧ b.name = n
    · rw [if_pos hbn] at h
      have hi : (0 : ℕ) = i := Option.some.inj h
      subst hi
      exact ⟨b, by simp, hbn.1, hbn.2, fun j c hlt _ => absurd hlt (Nat.not_lt_zero j)⟩
    · rw [if_neg hbn] at h
      rcases ht : findEligibleNamed n t with _ | i0
      · rw [ht] at h; cases h
      · rw [ht, Option.map_some'] at h
        have hi : Nat.succ i0 = i := Option.some.inj h
        subst hi
        obtain ⟨b0, hb0, hel0, hn0, hfirst0⟩ := ih i0 ht
        refine ⟨b0, by simpa using hb0, hel0, hn0, ?_⟩
        intro j c hlt hj
        cases j with
        | zero =>
          simp only [List.getElem?_cons_zero, Option.some.injEq] at hj
          rw [← hj]; exact hbn
        | succ j' =>
          simp only [List.getElem?_cons_succ] at hj
          exact hfirst0 j' c (Nat.succ_lt_succ_iff.mp hlt) hj

/-- Claim C10: ejectSpecificBall(name) selects the first eligible ball whose
name matches, applies to it exactly the same ejection marking as ejectOneBall
(markExiting: isExiting, phase rising, CAT_EXITING/CAT_WALL filter) so it
goes through the same phased guidance, and reports null when no eligible
ball carries the name. -/
theorem ejectSpecificBall_spec {α : Type} [LinearOrderedField α]
    (st : SimState α) (n : String) :
    (∀ i, findEligibleNamed n st.balls = some i →
      ∃ b, st.balls[i]? = some b ∧ eligible b = true ∧ b.name = n ∧
        (∀ (j : ℕ) (c : Ball α), j < i → st.balls[j]? = some c →
          ¬(eligible c = true ∧ c.name = n)) ∧
        ejectSpecificBall st n =
          ({ st with balls := setBall markExiting i st.balls }, some i) ∧
        (setBall markExiting i st.balls)[i]? = some (markExiting b)) ∧
    (findEligibleNamed n st.balls = Option.none →
      ejectSpecificBall st n = (st, Option.none)) := by
  constructor
  · intro i h
    obtain ⟨b, hb, hel, hn, hfirst⟩ := findEligibleNamed_spec n st.balls i h
    exact ⟨b, hb, hel, hn, hfirst, by simp [ejectSpecificBall, h],
      setBall_getElem_self markExiting st.balls i b hb⟩
  · intro h; simp [ejectSpecificBall, h]

/-- Claim C10 witness: in st10 the first ball named B is already exiting, so
the named ejection picks the eligible B at index 2 and marks exactly it. -/
theorem ejectSpecificBall_spec_witness :
    findEligibleNamed "B" st10.balls = some 2 ∧
    (∃ b, st10.balls[2]? = some b ∧ eligible b = true ∧ b.name = "B" ∧
      (∀ (j : ℕ) (c : Ball ℚ), j < 2 → st10.balls[j]? = some c →
        ¬(eligible c = true ∧ c.name = "B")) ∧
      ejectSpecificBall st10 "B" =
        ({ st10 with balls := setBall markExiting 2 st10.balls }, some 2) ∧
      (setBall markExiting 2 st10.balls)[2]? = some (markExiting b)) := by
  have h : findEligibleNamed "B" st10.balls = some 2 := by
    norm_num [findEligibleNamed, st10, mkBall, eligible,
      show ("A" : String) ≠ "B" by decide]
  exact ⟨h, (ejectSpecificBall_spec st10 "B").1 2 h⟩

/-- getElem? description of mapIdxFrom. -/
theorem mapIdxFrom_getElem {α : Type} (f : ℕ → Ball α → Ball α) :
    ∀ (l : List (Ball α)) (k i : ℕ),
      (mapIdxFrom f k l)[i]? = (l[i]?).map (f (k + i)) := by
  intro l
  induction l with
  | nil => intro k i; simp [mapIdxFrom]
  | cons b t ih =>
    intro k i
    cases i with
    | zero => simp [mapIdxFrom]
    | succ i' =>
      simp only [mapIdxFrom, List.getElem?_cons_succ]
      rw [ih (k + 1) i']
      have hki : k + 1 + i' = k + (i' + 1) := by omega
      rw [hki]

/-- turbStep leaves an exiting ball untouched. -/
theorem turbStep_skip_exiting (ccx ccy R mult t : ℝ) (rnd : ℝ × ℝ × ℝ)
    (b : Ball ℝ) (h : b.isExiting = true) :
    turbStep ccx ccy R mult t rnd b = b := by
  simp [turbStep, h]

/-- clampBall leaves an exiting or exited ball untouched. -/
theorem clampBall_skip_exiting (ccx ccy R : ℝ) (b : Ball ℝ)
    (h : b.isExiting = true ∨ b.hasExited = true) :
    clampBall ccx ccy R b = b := by
  simp only [clampBall, if_pos h]

/-- Claim C4: a ball marked isExiting is exempt from the turbulence pass and
from the boundary-clamp pass: both leave the entire ball record (position,
velocity, accumulated force, everything) unchanged, whatever its distance
from the container center. -/
theorem turbulence_and_clamp_skip_exiting (st : SimState ℝ) (delta : ℝ)
    (rnd : ℕ → ℝ × ℝ × ℝ) (i : ℕ) (b : Ball ℝ)
    (hb : st.balls[i]? = some b) (hex : b.isExiting = true) :
    (applyTurbulence delta rnd st).balls[i]? = some b ∧
    (clampPass st).balls[i]? = some b := by
  constructor
  · by_cases hact : st.turbulenceActive = false
    · simp [applyTurbulence, hact, hb]
    · simp only [applyTurbulence, if_neg hact]
      rw [mapIdxFrom_getElem, hb]
      simp [turbStep_skip_exiting _ _ _ _ _ _ b hex]
  · by_cases hs : st.containerSealed
    · simp only [clampPass, if_pos hs]
      rw [List.getElem?_map, hb]
      simp [clampBall_skip_exiting _ _ _ b (Or.inl hex)]
    · simp [clampPass, hs, hb]

/-- Claim C4 witness: the exiting ball of st4 (far outside the container, at
distance well beyond the hard boundary) survives both passes unchanged. -/
theorem turbulence_and_clamp_skip_exiting_witness :
    st4.balls[0]? = some (mkBallR "E" 500 500 3 4 true false Phase.rising) ∧
    (mkBallR "E" 500 500 3 4 true false Phase.rising).isExiting = true ∧
    (applyTurbulence 16 rnd0 st4).balls[0]? =
      some (mkBallR "E" 500 500 3 4 true false Phase.rising) ∧
    (clampPass st4).balls[0]? =
      some (mkBallR "E" 500 500 3 4 true false Phase.rising) := by
  have h1 : st4.balls[0]? = some (mkBallR "E" 500 500 3 4 true false Phase.rising) := by
    simp [st4]
  have h2 : (mkBallR "E" 500 500 3 4 true false Phase.rising).isExiting = true := rfl
  have h3 := turbulence_and_clamp_skip_exiting st4 16 rnd0 0 _ h1 h2
  exact ⟨h1, h2, h3.1, h3.2⟩

/-- Scaling both velocity components scales the speed. -/
theorem sqrt_scale (c vx vy : ℝ) (hc : 0 ≤ c) :
    Real.sqrt ((vx * c) ^ 2 + (vy * c) ^ 2) = c * Real.sqrt (vx ^ 2 + vy ^ 2) := by
  rw [show (vx * c) ^ 2 + (vy * c) ^ 2 = c ^ 2 * (vx ^ 2 + vy ^ 2) by ring,
    Real.sqrt_mul (sq_nonneg c), Real.sqrt_sq hc]

/-- limitSpeed without excess leaves the ball untouched. -/
theorem limitSpeed_noop (m : ℝ) (b : Ball ℝ) (h : speedOf b ≤ m) :
    limitSpeed m b = b := by
  have h' : ¬ (m < Real.sqrt (b.vx ^ 2 + b.vy ^ 2)) := not_lt.mpr h
  simp only [limitSpeed]
  rw [if_neg h']

/-- limitSpeed on an over-speed ball rescales the velocity proportionally
and lands exactly on the cap. -/
theorem limitSpeed_cap (m : ℝ) (b : Ball ℝ) (hm : 0 ≤ m) (h : m < speedOf b) :
    (limitSpeed m b).vx = b.vx * (m / speedOf b) ∧
    (limitSpeed m b).vy = b.vy * (m / speedOf b) ∧
    speedOf (limitSpeed m b) = m := by
  have h' : m < Real.sqrt (b.vx ^ 2 + b.vy ^ 2) := h
  have hs : 0 < speedOf b := lt_of_le_of_lt hm h
  have hsne : Real.sqrt (b.vx ^ 2 + b.vy ^ 2) ≠ 0 := ne_of_gt (lt_of_le_of_lt hm h')
  simp only [limitSpeed]
  rw [if_pos h']
  refine ⟨rfl, rfl, ?_⟩
  show Real.sqrt ((b.vx * (m / Real.sqrt (b.vx ^ 2 + b.vy ^ 2))) ^ 2 +
      (b.vy * (m / Real.sqrt (b.vx ^ 2 + b.vy ^ 2))) ^ 2) = m
  rw [sqrt_scale _ _ _ (div_nonneg hm (Real.sqrt_nonneg _))]
  exact div_mul_cancel₀ m hsne

/-- On a non-exiting ball at distance at least 1 from the center, turbStep
accumulates the five force terms into the force fields and then clamps the
speed. -/
theorem turbStep_eq (ccx ccy R mult t : ℝ) (rnd : ℝ × ℝ × ℝ) (b : Ball ℝ)
    (hex : b.isExiting = false)
    (hdist : 1 ≤ Real.sqrt ((b.x - ccx) * (b.x - ccx) + (b.y - ccy) * (b.y - ccy))) :
    turbStep ccx ccy R mult t rnd b =
      limitSpeed turbulenceSpeedLimit
        (applyForce b
          ((calcVortexForce b.x b.y ccx ccy R mult).1 + (calcNoiseForce mult t b.seed).1 +
              (calcCenteringForce R
                  ((b.x - ccx) / Real.sqrt ((b.x - ccx) * (b.x - ccx) + (b.y - ccy) * (b.y - ccy)))
                  ((b.y - ccy) / Real.sqrt ((b.x - ccx) * (b.x - ccx) + (b.y - ccy) * (b.y - ccy)))
                  (Real.sqrt ((b.x - ccx) * (b.x - ccx) + (b.y - ccy) * (b.y - ccy)))).1 +
            (calcBurstForce mult rnd).1)
          ((calcVortexForce b.x b.y ccx ccy R mult).2 + (calcNoiseForce mult t b.seed).2 +
                (calcCenteringForce R
                    ((b.x - ccx) / Real.sqrt ((b.x - ccx) * (b.x - ccx) + (b.y - ccy) * (b.y - ccy)))
                    ((b.y - ccy) / Real.sqrt ((b.x - ccx) * (b.x - ccx) + (b.y - ccy) * (b.y - ccy)))
                    (Real.sqrt ((b.x - ccx) * (b.x - ccx) + (b.y - ccy) * (b.y - ccy)))).2 +
              (calcBurstForce mult rnd).2 +
            calcFountainForce mult b.y ccy R)) := by
  simp only [turbStep, hex]
  rw [if_neg (by simp : ¬ (false = true)), if_neg (not_lt.mpr hdist)]

/-- Capping the speed of a ball after adding any force: the velocity obeys
the cap, is rescaled exactly onto the cap when it was above it, and is
untouched when it was below. -/
theorem limitSpeed_applyForce_spec (b : Ball ℝ) (gx gy : ℝ) :
    speedOf (limitSpeed turbulenceSpeedLimit (applyForce b gx gy)) ≤ turbulenceSpeedLimit ∧
    (turbulenceSpeedLimit < speedOf b →
      (limitSpeed turbulenceSpeedLimit (applyForce b gx gy)).vx =
        b.vx * (turbulenceSpeedLimit / speedOf b) ∧
      (limitSpeed turbulenceSpeedLimit (applyForce b gx gy)).vy =
        b.vy * (turbulenceSpeedLimit / speedOf b) ∧
      speedOf (limitSpeed turbulenceSpeedLimit (applyForce b gx gy)) = turbulenceSpeedLimit) ∧
    (speedOf b ≤ turbulenceSpeedLimit →
      (limitSpeed turbulenceSpeedLimit (applyForce b gx gy)).vx = b.vx ∧
      (limitSpeed turbulenceSpeedLimit (applyForce b gx gy)).vy = b.vy) := by
  have hAspeed : speedOf (applyForce b gx gy) = speedOf b := rfl
  have hm : (0 : ℝ) ≤ turbulenceSpeedLimit := by norm_num [turbulenceSpeedLimit]
  refine ⟨?_, ?_, ?_⟩
  · rcases le_or_lt (speedOf b) turbulenceSpeedLimit with hc | hc
    · rw [limitSpeed_noop turbulenceSpeedLimit (applyForce b gx gy) (hAspeed ▸ hc)]
      rw [hAspeed]; exact hc
    · have hcap := limitSpeed_cap turbulenceSpeedLimit (applyForce b gx gy) hm (hAspeed ▸ hc)
      rw [hcap.2.2]
  · intro hc
    have hcap := limitSpeed_cap turbulenceSpeedLimit (applyForce b gx gy) hm (hAspeed ▸ hc)
    refine ⟨?_, ?_, hcap.2.2⟩
    · rw [hcap.1]; rfl
    · rw [hcap.2.1]; rfl
  · intro hc
    rw [limitSpeed_noop turbulenceSpeedLimit (applyForce b gx gy) (hAspeed ▸ hc)]
    exact ⟨rfl, rfl⟩

/-- Claim C5 (amended): while turbulence is active with intensity 1.0, the
turbulence pass caps the speed of every non-exiting ball that is at least
1 px away from the container center at the fixed limit 12, rescaling the
velocity proportionally (direction preserved, final speed exactly 12) when
the cap would be exceeded; balls within 1 px of the center are skipped by
the pass (source guard dist < 1). -/
theorem applyTurbulence_speed_cap (st : SimState ℝ) (delta : ℝ)
    (rnd : ℕ → ℝ × ℝ × ℝ) (i : ℕ) (b : Ball ℝ)
    (hact : st.turbulenceActive = true)
    (hmul : st.swirlMultiplier = 1)
    (hb : st.balls[i]? = some b)
    (hex : b.isExiting = false)
    (hdist : 1 ≤ Real.sqrt ((b.x - st.containerCenter.1) * (b.x - st.containerCenter.1)
      + (b.y - st.containerCenter.2) * (b.y - st.containerCenter.2))) :
    ∃ b2, (applyTurbulence delta rnd st).balls[i]? = some b2 ∧
      speedOf b2 ≤ turbulenceSpeedLimit ∧
      (turbulenceSpeedLimit < speedOf b →
        b2.vx = b.vx * (turbulenceSpeedLimit / speedOf b) ∧
        b2.vy = b.vy * (turbulenceSpeedLimit / speedOf b) ∧
        speedOf b2 = turbulenceSpeedLimit) ∧
      (speedOf b ≤ turbulenceSpeedLimit → b2.vx = b.vx ∧ b2.vy = b.vy) := by
  have hact' : ¬ st.turbulenceActive = false := by simp [hact]
  have hmem : (applyTurbulence delta rnd st).balls[i]? =
      some (turbStep st.containerCenter.1 st.containerCenter.2 st.containerRadius
        st.swirlMultiplier (st.turbulenceTime + delta) (rnd i) b) := by
    simp only [applyTurbulence, if_neg hact']
    rw [mapIdxFrom_getElem, hb]
    simp
  rw [turbStep_eq st.containerCenter.1 st.containerCenter.2 st.containerRadius
    st.swirlMultiplier (st.turbulenceTime + delta) (rnd i) b hex hdist] at hmem
  exact ⟨_, hmem, (limitSpeed_applyForce_spec b _ _).1,
    (limitSpeed_applyForce_spec b _ _).2.1, (limitSpeed_applyForce_spec b _ _).2.2⟩

/-- Claim C5 (amended) witness: ball G of stC5w sits 50 px from the center
with speed 20, so the pass rescales it to speed exactly 12. -/
theorem applyTurbulence_speed_cap_witness :
    stC5w.turbulenceActive = true ∧ stC5w.swirlMultiplier = 1 ∧
    stC5w.balls[0]? = some (mkBallR "G" 50 0 20 0 false false Phase.none) ∧
    (mkBallR "G" 50 0 20 0 false false Phase.none).isExiting = false ∧
    1 ≤ Real.sqrt
      (((mkBallR "G" 50 0 20 0 false false Phase.none).x - stC5w.containerCenter.1) *
        ((mkBallR "G" 50 0 20 0 false false Phase.none).x - stC5w.containerCenter.1)
      + ((mkBallR "G" 50 0 20 0 false false Phase.none).y - stC5w.containerCenter.2) *
        ((mkBallR "G" 50 0 20 0 false false Phase.none).y - stC5w.containerCenter.2)) ∧
    (∃ b2, (applyTurbulence 16 rnd0 stC5w).balls[0]? = some b2 ∧
      speedOf b2 ≤ turbulenceSpeedLimit ∧
      (turbulenceSpeedLimit < speedOf (mkBallR "G" 50 0 20 0 false false Phase.none) →
        b2.vx = (mkBallR "G" 50 0 20 0 false false Phase.none).vx *
          (turbulenceSpeedLimit / speedOf (mkBallR "G" 50 0 20 0 false false Phase.none)) ∧
        b2.vy = (mkBallR "G" 50 0 20 0 false false Phase.none).vy *
          (turbulenceSpeedLimit / speedOf (mkBallR "G" 50 0 20 0 false false Phase.none)) ∧
        speedOf b2 = turbulenceSpeedLimit) ∧
      (speedOf (mkBallR "G" 50 0 20 0 false false Phase.none) ≤ turbulenceSpeedLimit →
        b2.vx = (mkBallR "G" 50 0 20 0 false false Phase.none).vx ∧
        b2.vy = (mkBallR "G" 50 0 20 0 false false Phase.none).vy)) := by
  have h1 : stC5w.balls[0]? = some (mkBallR "G" 50 0 20 0 false false Phase.none) := by
    simp [stC5w]
  have hd : (1 : ℝ) ≤ Real.sqrt
      (((mkBallR "G" 50 0 20 0 false false Phase.none).x - stC5w.containerCenter.1) *
        ((mkBallR "G" 50 0 20 0 false false Phase.none).x - stC5w.containerCenter.1)
      + ((mkBallR "G" 50 0 20 0 false false Phase.none).y - stC5w.containerCenter.2) *
        ((mkBallR "G" 50 0 20 0 false false Phase.none).y - stC5w.containerCenter.2)) := by
    have : (((mkBallR "G" 50 0 20 0 false false Phase.none).x - stC5w.containerCenter.1) *
        ((mkBallR "G" 50 0 20 0 false false Phase.none).x - stC5w.containerCenter.1)
      + ((mkBallR "G" 50 0 20 0 false false Phase.none).y - stC5w.containerCenter.2) *
        ((mkBallR "G" 50 0 20 0 false false Phase.none).y - stC5w.containerCenter.2)) =
        (50 : ℝ) ^ 2 := by
      show ((50 : ℝ) - 0) * ((50 : ℝ) - 0) + ((0 : ℝ) - 0) * ((0 : ℝ) - 0) = 50 ^ 2
      norm_num
    rw [this, Real.sqrt_sq (by norm_num : (0 : ℝ) ≤ 50)]
    norm_num
  exact ⟨rfl, rfl, h1, rfl, hd,
    applyTurbulence_speed_cap stC5w 16 rnd0 0 _ rfl rfl h1 rfl hd⟩

/-- Claim C5 counterexample: the ball of stC5 is not exiting, turbulence is
active at intensity 1.0, yet after the applyTurbulence pass its speed is 100,
far above the cap 12 — the pass skips every ball within 1 px of the
container center (source guard dist < 1) before the speed clamp. -/
theorem turbulence_cap_counterexample :
    stC5.turbulenceActive = true ∧ stC5.swirlMultiplier = 1 ∧
    (mkBallR "F" 0 0 100 0 false false Phase.none).isExiting = false ∧
    (applyTurbulence 16 rnd0 stC5).balls[0]? =
      some (mkBallR "F" 0 0 100 0 false false Phase.none) ∧
    ¬ speedOf (mkBallR "F" 0 0 100 0 false false Phase.none) ≤ turbulenceSpeedLimit := by
  refine ⟨rfl, rfl, rfl, ?_, ?_⟩
  · have hact' : ¬ stC5.turbulenceActive = false := by simp [stC5]
    simp only [applyTurbulence, if_neg hact']
    have h1 : stC5.balls[0]? = some (mkBallR "F" 0 0 100 0 false false Phase.none) := by
      simp [stC5]
    rw [mapIdxFrom_getElem, h1]
    simp only [Option.map_some', Option.some.injEq, Nat.zero_add]
    have hzero : Real.sqrt
        (((mkBallR "F" 0 0 100 0 false false Phase.none).x - stC5.containerCenter.1) *
          ((mkBallR "F" 0 0 100 0 false false Phase.none).x - stC5.containerCenter.1)
        + ((mkBallR "F" 0 0 100 0 false false Phase.none).y - stC5.containerCenter.2) *
          ((mkBallR "F" 0 0 100 0 false false Phase.none).y - stC5.containerCenter.2)) < 1 := by
      have h0 : (((mkBallR "F" 0 0 100 0 false false Phase.none).x - stC5.containerCenter.1) *
          ((mkBallR "F" 0 0 100 0 false false Phase.none).x - stC5.containerCenter.1)
        + ((mkBallR "F" 0 0 100 0 false false Phase.none).y - stC5.containerCenter.2) *
          ((mkBallR "F" 0 0 100 0 false false Phase.none).y - stC5.containerCenter.2)) = 0 := by
        show ((0 : ℝ) - 0) * ((0 : ℝ) - 0) + ((0 : ℝ) - 0) * ((0 : ℝ) - 0) = 0
        norm_num
      rw [h0, Real.sqrt_zero]; norm_num
    simp only [turbStep, if_pos hzero]
    split <;> rfl
  · have hsp : speedOf (mkBallR "F" 0 0 100 0 false false Phase.none) = 100 := by
      show Real.sqrt ((100 : ℝ) ^ 2 + (0 : ℝ) ^ 2) = 100
      rw [show ((100 : ℝ) ^ 2 + (0 : ℝ) ^ 2) = 100 ^ 2 by norm_num,
        Real.sqrt_sq (by norm_num : (0 : ℝ) ≤ 100)]
    rw [hsp]
    norm_num [turbulenceSpeedLimit]

/-- clampBall does not change the ejection flags. -/
theorem clampBall_flags (ccx ccy R : ℝ) (b : Ball ℝ) :
    (clampBall ccx ccy R b).isExiting = b.isExiting ∧
    (clampBall ccx ccy R b).hasExited = b.hasExited := by
  simp only [clampBall]
  split_ifs <;> exact ⟨rfl, rfl⟩

/-- clampBall is the identity on balls inside the hard boundary. -/
theorem clampBall_near (ccx ccy R : ℝ) (b : Ball ℝ)
    (hfar : ¬ R * boundaryHardRatio <
      Real.sqrt ((b.x - ccx) * (b.x - ccx) + (b.y - ccy) * (b.y - ccy))) :
    clampBall ccx ccy R b = b := by
  simp only [clampBall]
  split_ifs <;> rfl

/-- Normalizing a vector by its length and rescaling lands on the target
radius. -/
theorem radial_inner (dx dy d c : ℝ) (hd : d * d = dx * dx + dy * dy)
    (hdne : d ≠ 0) (hc : 0 ≤ c) :
    Real.sqrt (dx / d * c * (dx / d * c) + dy / d * c * (dy / d * c)) = c := by
  have hstep : dx / d * c * (dx / d * c) + dy / d * c * (dy / d * c)
      = ((dx * dx + dy * dy) / (d * d)) * (c * c) := by ring
  rw [hstep, ← hd, div_self (mul_ne_zero hdne hdne), one_mul, Real.sqrt_mul_self hc]

/-- Removing the radial component of a velocity leaves zero radial
component. -/
theorem radial_velocity_zero (dx dy d vx vy : ℝ) (hd : d * d = dx * dx + dy * dy)
    (hdne : d ≠ 0) :
    (vx - dx / d * (vx * (dx / d) + vy * (dy / d))) * (dx / d)
      + (vy - dy / d * (vx * (dx / d) + vy * (dy / d))) * (dy / d) = 0 := by
  field_simp
  linear_combination (vx * dx + vy * dy) * hd

/-- The teleport branch of clampBall: a non-exiting ball beyond the hard
boundary is moved onto the circle of radius R·boundaryTeleportRatio along
its own radial direction, and an outward radial velocity component is
removed while the tangential component survives. -/
theorem clampBall_teleport (ccx ccy R : ℝ) (hR : 0 < R) (b : Ball ℝ)
    (hex : b.isExiting = false) (hexd : b.hasExited = false)
    (hfar : R * boundaryHardRatio <
      Real.sqrt ((b.x - ccx) * (b.x - ccx) + (b.y - ccy) * (b.y - ccy))) :
    (clampBall ccx ccy R b).x - ccx =
      (b.x - ccx) / Real.sqrt ((b.x - ccx) * (b.x - ccx) + (b.y - ccy) * (b.y - ccy)) *
        (R * boundaryTeleportRatio) ∧
    (clampBall ccx ccy R b).y - ccy =
      (b.y - ccy) / Real.sqrt ((b.x - ccx) * (b.x - ccx) + (b.y - ccy) * (b.y - ccy)) *
        (R * boundaryTeleportRatio) ∧
    Real.sqrt (((clampBall ccx ccy R b).x - ccx) * ((clampBall ccx ccy R b).x - ccx)
      + ((clampBall ccx ccy R b).y - ccy) * ((clampBall ccx ccy R b).y - ccy)) =
      R * boundaryTeleportRatio ∧
    (0 < b.vx * ((b.x - ccx) / Real.sqrt ((b.x - ccx) * (b.x - ccx) + (b.y - ccy) * (b.y - ccy)))
        + b.vy * ((b.y - ccy) / Real.sqrt ((b.x - ccx) * (b.x - ccx) + (b.y - ccy) * (b.y - ccy))) →
      (clampBall ccx ccy R b).vx *
          ((b.x - ccx) / Real.sqrt ((b.x - ccx) * (b.x - ccx) + (b.y - ccy) * (b.y - ccy)))
        + (clampBall ccx ccy R b).vy *
          ((b.y - ccy) / Real.sqrt ((b.x - ccx) * (b.x - ccx) + (b.y - ccy) * (b.y - ccy))) = 0 ∧
      (clampBall ccx ccy R b).vx *
          (-((b.y - ccy) / Real.sqrt ((b.x - ccx) * (b.x - ccx) + (b.y - ccy) * (b.y - ccy))))
        + (clampBall ccx ccy R b).vy *
          ((b.x - ccx) / Real.sqrt ((b.x - ccx) * (b.x - ccx) + (b.y - ccy) * (b.y - ccy))) =
      b.vx * (-((b.y - ccy) / Real.sqrt ((b.x - ccx) * (b.x - ccx) + (b.y - ccy) * (b.y - ccy))))
        + b.vy * ((b.x - ccx) / Real.sqrt ((b.x - ccx) * (b.x - ccx) + (b.y - ccy) * (b.y - ccy)))) ∧
    (¬ 0 < b.vx * ((b.x - ccx) / Real.sqrt ((b.x - ccx) * (b.x - ccx) + (b.y - ccy) * (b.y - ccy)))
        + b.vy * ((b.y - ccy) / Real.sqrt ((b.x - ccx) * (b.x - ccx) + (b.y - ccy) * (b.y - ccy))) →
      (clampBall ccx ccy R b).vx = b.vx ∧ (clampBall ccx ccy R b).vy = b.vy) := by
  have hne : ¬ (b.isExiting = true ∨ b.hasExited = true) := by simp [hex, hexd]
  have hhard : (0 : ℝ) ≤ R * boundaryHardRatio :=
    mul_nonneg (le_of_lt hR) (by norm_num [boundaryHardRatio])
  have hd0 : 0 < Real.sqrt ((b.x - ccx) * (b.x - ccx) + (b.y - ccy) * (b.y - ccy)) :=
    lt_of_le_of_lt hhard hfar
  have hdne : Real.sqrt ((b.x - ccx) * (b.x - ccx) + (b.y - ccy) * (b.y - ccy)) ≠ 0 :=
    ne_of_gt hd0
  have hdd : Real.sqrt ((b.x - ccx) * (b.x - ccx) + (b.y - ccy) * (b.y - ccy)) *
      Real.sqrt ((b.x - ccx) * (b.x - ccx) + (b.y - ccy) * (b.y - ccy)) =
      (b.x - ccx) * (b.x - ccx) + (b.y - ccy) * (b.y - ccy) :=
    Real.mul_self_sqrt (add_nonneg (mul_self_nonneg _) (mul_self_nonneg _))
  have hτ : (0 : ℝ) ≤ R * boundaryTeleportRatio :=
    mul_nonneg (le_of_lt hR) (by norm_num [boundaryTeleportRatio])
  by_cases hv : 0 < b.vx *
      ((b.x - ccx) / Real.sqrt ((b.x - ccx) * (b.x - ccx) + (b.y - ccy) * (b.y - ccy)))
    + b.vy * ((b.y - ccy) / Real.sqrt ((b.x - ccx) * (b.x - ccx) + (b.y - ccy) * (b.y - ccy)))
  · simp only [clampBall, if_neg hne, if_pos hfar, if_pos hv]
    refine ⟨by ring, by ring, ?_, ?_, ?_⟩
    · have hx : ccx + (b.x - ccx) / Real.sqrt ((b.x - ccx) * (b.x - ccx) + (b.y - ccy) * (b.y - ccy))
          * R * boundaryTeleportRatio - ccx =
          (b.x - ccx) / Real.sqrt ((b.x - ccx) * (b.x - ccx) + (b.y - ccy) * (b.y - ccy))
          * (R * boundaryTeleportRatio) := by ring
      have hy : ccy + (b.y - ccy) / Real.sqrt ((b.x - ccx) * (b.x - ccx) + (b.y - ccy) * (b.y - ccy))
          * R * boundaryTeleportRatio - ccy =
          (b.y - ccy) / Real.sqrt ((b.x - ccx) * (b.x - ccx) + (b.y - ccy) * (b.y - ccy))
          * (R * boundaryTeleportRatio) := by ring
      rw [hx, hy]
      exact radial_inner (b.x - ccx) (b.y - ccy) _ (R * boundaryTeleportRatio)
        hdd hdne hτ
    · intro _
      constructor
      · exact radial_velocity_zero (b.x - ccx) (b.y - ccy) _ b.vx b.vy hdd hdne
      · ring
    · intro hcon; exact absurd hv hcon
  · simp only [clampBall, if_neg hne, if_pos hfar, if_neg hv]
    refine ⟨by ring, by ring, ?_, ?_, ?_⟩
    · have hx : ccx + (b.x - ccx) / Real.sqrt ((b.x - ccx) * (b.x - ccx) + (b.y - ccy) * (b.y - ccy))
          * R * boundaryTeleportRatio - ccx =
          (b.x - ccx) / Real.sqrt ((b.x - ccx) * (b.x - ccx) + (b.y - ccy) * (b.y - ccy))
          * (R * boundaryTeleportRatio) := by ring
      have hy : ccy + (b.y - ccy) / Real.sqrt ((b.x - ccx) * (b.x - ccx) + (b.y - ccy) * (b.y - ccy))
          * R * boundaryTeleportRatio - ccy =
          (b.y - ccy) / Real.sqrt ((b.x - ccx) * (b.x - ccx) + (b.y - ccy) * (b.y - ccy))
          * (R * boundaryTeleportRatio) := by ring
      rw [hx, hy]
      exact radial_inner (b.x - ccx) (b.y - ccy) _ (R * boundaryTeleportRatio)
        hdd hdne hτ
    · intro hcon; exact absurd hcon hv
    · intro _; exact ⟨by trivial, by trivial⟩

/-- After clampBall every non-exiting ball is within the hard boundary. -/
theorem clampBall_dist_le (ccx ccy R : ℝ) (hR : 0 < R) (b : Ball ℝ)
    (hex : b.isExiting = false) (hexd : b.hasExited = false) :
    Real.sqrt (((clampBall ccx ccy R b).x - ccx) * ((clampBall ccx ccy R b).x - ccx)
      + ((clampBall ccx ccy R b).y - ccy) * ((clampBall ccx ccy R b).y - ccy)) ≤
      R * boundaryHardRatio := by
  by_cases hfar : R * boundaryHardRatio <
      Real.sqrt ((b.x - ccx) * (b.x - ccx) + (b.y - ccy) * (b.y - ccy))
  · have h := (clampBall_teleport ccx ccy R hR b hex hexd hfar).2.2.1
    rw [h]
    have hmono : boundaryTeleportRatio ≤ boundaryHardRatio := by
      norm_num [boundaryTeleportRatio, boundaryHardRatio]
    exact mul_le_mul_of_nonneg_left hmono (le_of_lt hR)
  · rw [clampBall_near ccx ccy R b hfar]
    exact not_lt.mp hfar

/-- The turbulence pass does not change the container geometry or the
sealed flag. -/
theorem applyTurbulence_fields (delta : ℝ) (rnd : ℕ → ℝ × ℝ × ℝ) (s : SimState ℝ) :
    (applyTurbulence delta rnd s).containerCenter = s.containerCenter ∧
    (applyTurbulence delta rnd s).containerRadius = s.containerRadius ∧
    (applyTurbulence delta rnd s).containerSealed = s.containerSealed := by
  by_cases h : s.turbulenceActive = false <;> simp [applyTurbulence, h]

/-- Claim C3: on a sealed container, after every update(dt) call every ball
that is neither isExiting nor hasExited lies within
boundaryHardRatio (0.92) times the radius of the container center, whatever
the black-box solver and the turbulence randomness did during the tick; and
any such ball found beyond that fraction is teleported radially inward
(direction preserved) onto exactly boundaryTeleportRatio (0.8) times the
radius, with a positive outward radial velocity component zeroed and the
tangential component preserved. -/
theorem update_boundary_containment (st : SimState ℝ)
    (hseal : st.containerSealed = true) (hR : 0 < st.containerRadius)
    (npos nvel : ℕ → ℝ × ℝ) (delta : ℝ) (rnd : ℕ → ℝ × ℝ × ℝ) :
    (∀ b2 ∈ (update npos nvel delta rnd st).balls,
      b2.isExiting = false → b2.hasExited = false →
      Real.sqrt ((b2.x - st.containerCenter.1) * (b2.x - st.containerCenter.1)
        + (b2.y - st.containerCenter.2) * (b2.y - st.containerCenter.2)) ≤
        st.containerRadius * boundaryHardRatio) ∧
    (∀ b : Ball ℝ, b.isExiting = false → b.hasExited = false →
      st.containerRadius * boundaryHardRatio <
        Real.sqrt ((b.x - st.containerCenter.1) * (b.x - st.containerCenter.1)
          + (b.y - st.containerCenter.2) * (b.y - st.containerCenter.2)) →
      (clampBall st.containerCenter.1 st.containerCenter.2 st.containerRadius b).x
          - st.containerCenter.1 =
        (b.x - st.containerCenter.1) /
          Real.sqrt ((b.x - st.containerCenter.1) * (b.x - st.containerCenter.1)
            + (b.y - st.containerCenter.2) * (b.y - st.containerCenter.2)) *
          (st.containerRadius * boundaryTeleportRatio) ∧
      (clampBall st.containerCenter.1 st.containerCenter.2 st.containerRadius b).y
          - st.containerCenter.2 =
        (b.y - st.containerCenter.2) /
          Real.sqrt ((b.x - st.containerCenter.1) * (b.x - st.containerCenter.1)
            + (b.y - st.containerCenter.2) * (b.y - st.containerCenter.2)) *
          (st.containerRadius * boundaryTeleportRatio) ∧
      Real.sqrt
        (((clampBall st.containerCenter.1 st.containerCenter.2 st.containerRadius b).x
            - st.containerCenter.1) *
          ((clampBall st.containerCenter.1 st.containerCenter.2 st.containerRadius b).x
            - st.containerCenter.1)
        + ((clampBall st.containerCenter.1 st.containerCenter.2 st.containerRadius b).y
            - st.containerCenter.2) *
          ((clampBall st.containerCenter.1 st.containerCenter.2 st.containerRadius b).y
            - st.containerCenter.2)) = st.containerRadius * boundaryTeleportRatio ∧
      (0 < b.vx * ((b.x - st.containerCenter.1) /
            Real.sqrt ((b.x - st.containerCenter.1) * (b.x - st.containerCenter.1)
              + (b.y - st.containerCenter.2) * (b.y - st.containerCenter.2)))
          + b.vy * ((b.y - st.containerCenter.2) /
            Real.sqrt ((b.x - st.containerCenter.1) * (b.x - st.containerCenter.1)
              + (b.y - st.containerCenter.2) * (b.y - st.containerCenter.2))) →
        (clampBall st.containerCenter.1 st.containerCenter.2 st.containerRadius b).vx *
            ((b.x - st.containerCenter.1) /
              Real.sqrt ((b.x - st.containerCenter.1) * (b.x - st.containerCenter.1)
                + (b.y - st.containerCenter.2) * (b.y - st.containerCenter.2)))
          + (clampBall st.containerCenter.1 st.containerCenter.2 st.containerRadius b).vy *
            ((b.y - st.containerCenter.2) /
              Real.sqrt ((b.x - st.containerCenter.1) * (b.x - st.containerCenter.1)
                + (b.y - st.containerCenter.2) * (b.y - st.containerCenter.2))) = 0 ∧
        (clampBall st.containerCenter.1 st.containerCenter.2 st.containerRadius b).vx *
            (-((b.y - st.containerCenter.2) /
              Real.sqrt ((b.x - st.containerCenter.1) * (b.x - st.containerCenter.1)
                + (b.y - st.containerCenter.2) * (b.y - st.containerCenter.2))))
          + (clampBall st.containerCenter.1 st.containerCenter.2 st.containerRadius b).vy *
            ((b.x - st.containerCenter.1) /
              Real.sqrt ((b.x - st.containerCenter.1) * (b.x - st.containerCenter.1)
                + (b.y - st.containerCenter.2) * (b.y - st.containerCenter.2))) =
          b.vx * (-((b.y - st.containerCenter.2) /
              Real.sqrt ((b.x - st.containerCenter.1) * (b.x - st.containerCenter.1)
                + (b.y - st.containerCenter.2) * (b.y - st.containerCenter.2))))
            + b.vy * ((b.x - st.containerCenter.1) /
              Real.sqrt ((b.x - st.containerCenter.1) * (b.x - st.containerCenter.1)
                + (b.y - st.containerCenter.2) * (b.y - st.containerCenter.2)))) ∧
      (¬ 0 < b.vx * ((b.x - st.containerCenter.1) /
            Real.sqrt ((b.x - st.containerCenter.1) * (b.x - st.containerCenter.1)
              + (b.y - st.containerCenter.2) * (b.y - st.containerCenter.2)))
          + b.vy * ((b.y - st.containerCenter.2) /
            Real.sqrt ((b.x - st.containerCenter.1) * (b.x - st.containerCenter.1)
              + (b.y - st.containerCenter.2) * (b.y - st.containerCenter.2))) →
        (clampBall st.containerCenter.1 st.containerCenter.2 st.containerRadius b).vx = b.vx ∧
        (clampBall st.containerCenter.1 st.containerCenter.2 st.containerRadius b).vy = b.vy)) := by
  constructor
  · intro b2 hmem hex2 hexd2
    have hfields := applyTurbulence_fields delta rnd (solverStep npos nvel st)
    have hc1 : (applyTurbulence delta rnd (solverStep npos nvel st)).containerCenter =
        st.containerCenter := hfields.1
    have hrad : (applyTurbulence delta rnd (solverStep npos nvel st)).containerRadius =
        st.containerRadius := hfields.2.1
    have hsl : (applyTurbulence delta rnd (solverStep npos nvel st)).containerSealed = true :=
      hfields.2.2.trans hseal
    have hmem' : b2 ∈ List.map
        (clampBall (applyTurbulence delta rnd (solverStep npos nvel st)).containerCenter.1
          (applyTurbulence delta rnd (solverStep npos nvel st)).containerCenter.2
          (applyTurbulence delta rnd (solverStep npos nvel st)).containerRadius)
        (applyTurbulence delta rnd (solverStep npos nvel st)).balls := by
      simpa [update, clampPass, hsl] using hmem
    obtain ⟨b0, hb0, hb0e⟩ := List.mem_map.mp hmem'
    rw [hc1, hrad] at hb0e
    have hflags := clampBall_flags st.containerCenter.1 st.containerCenter.2
      st.containerRadius b0
    have hex0 : b0.isExiting = false := by rw [← hflags.1, hb0e, hex2]
    have hexd0 : b0.hasExited = false := by rw [← hflags.2, hb0e, hexd2]
    rw [← hb0e]
    exact clampBall_dist_le st.containerCenter.1 st.containerCenter.2 st.containerRadius
      hR b0 hex0 hexd0
  · intro b hex hexd hfar
    exact clampBall_teleport st.containerCenter.1 st.containerCenter.2 st.containerRadius
      hR b hex hexd hfar

/-- Claim C3 witness: in st3w (sealed, radius 100) whatever the tick does,
afterwards the non-exiting ball is within 92 px of the center. -/
theorem update_boundary_containment_witness :
    st3w.containerSealed = true ∧ (0 : ℝ) < st3w.containerRadius ∧
    (∀ b2 ∈ (update pos3 vel3 16 rnd0 st3w).balls,
      b2.isExiting = false → b2.hasExited = false →
      Real.sqrt ((b2.x - st3w.containerCenter.1) * (b2.x - st3w.containerCenter.1)
        + (b2.y - st3w.containerCenter.2) * (b2.y - st3w.containerCenter.2)) ≤
        st3w.containerRadius * boundaryHardRatio) :=
  ⟨rfl, by norm_num [st3w],
    (update_boundary_containment st3w rfl (by norm_num [st3w]) pos3 vel3 16 rnd0).1⟩

/-- A steer tick never changes the ball's name. -/
theorem steerBall_name (ch : Channel ℝ) (enterY enterRadius : ℝ) (b : Ball ℝ) :
    ((steerBall ch enterY enterRadius b).1).name = b.name := by
  simp only [steerBall, limitSpeed, applyForce]
  split_ifs <;> try rfl
  all_goals (rcases hph : b.exitPhase <;> simp [hph] <;> split_ifs <;> rfl)

/-- A completed ball's steer tick does nothing (the interval clears itself
with no mutation and no callback). -/
theorem steerBall_exited (ch : Channel ℝ) (enterY enterRadius : ℝ) (b : Ball ℝ)
    (h : b.hasExited = true) : steerBall ch enterY enterRadius b = (b, false) := by
  simp [steerBall, h]

/-- Writing back the ball that is already at the index is a no-op. -/
theorem setBall_const_self {α : Type} (c : Ball α) :
    ∀ (i : ℕ) (l : List (Ball α)), l[i]? = some c →
      setBall (fun _ => c) i l = l := by
  intro i
  induction i with
  | zero =>
    intro l hl
    cases l with
    | nil => simp at hl
    | cons b t =>
      simp only [List.getElem?_cons_zero, Option.some.injEq] at hl
      simp [setBall, hl]
  | succ i' ih =>
    intro l hl
    cases l with
    | nil => simp at hl
    | cons b t =>
      simp only [List.getElem?_cons_succ] at hl
      simp [setBall, ih t hl]

/-- A guidance tick on a ball that has already completed changes nothing and
fires no callback. -/
theorem guideStep_exited (st : SimState ℝ) (j : ℕ) (c : Ball ℝ)
    (hc : st.balls[j]? = some c) (hex : c.hasExited = true) :
    guideStep st j = (st, Option.none) := by
  simp only [guideStep, hc]
  rw [steerBall_exited _ _ _ c hex]
  simp [setBall_const_self c j st.balls hc]

/-- Removing an entry cannot increase a name's multiplicity. -/
theorem nameCount_removeBall_le {α : Type} (n : String) :
    ∀ (i : ℕ) (l : List (Ball α)), nameCount n (removeBall i l) ≤ nameCount n l := by
  intro i
  induction i with
  | zero =>
    intro l
    cases l with
    | nil => exact le_refl _
    | cons b t => simp [removeBall, nameCount]
  | succ i' ih =>
    intro l
    cases l with
    | nil => exact le_refl _
    | cons b t =>
      simp only [removeBall, nameCount]
      exact Nat.add_le_add_left (ih t) _

/-- Removing the entry at a hit index removes exactly one copy of its
name. -/
theorem nameCount_removeBall_at {α : Type} (b : Ball α) :
    ∀ (i : ℕ) (l : List (Ball α)), l[i]? = some b →
      nameCount b.name (removeBall i l) + 1 = nameCount b.name l := by
  intro i
  induction i with
  | zero =>
    intro l hl
    cases l with
    | nil => simp at hl
    | cons c t =>
      simp only [List.getElem?_cons_zero, Option.some.injEq] at hl
      simp [removeBall, nameCount, ← hl, Nat.add_comm]
  | succ i' ih =>
    intro l hl
    cases l with
    | nil => simp at hl
    | cons c t =>
      simp only [List.getElem?_cons_succ] at hl
      simp only [removeBall, nameCount]
      rw [Nat.add_assoc, ih t hl]

/-- Rewriting one entry by a name-preserving function keeps every name's
multiplicity. -/
theorem nameCount_setBall {α : Type} (n : String) (f : Ball α → Ball α)
    (hf : ∀ b, (f b).name = b.name) :
    ∀ (i : ℕ) (l : List (Ball α)), nameCount n (setBall f i l) = nameCount n l := by
  intro i
  induction i with
  | zero =>
    intro l
    cases l with
    | nil => rfl
    | cons b t => simp [setBall, nameCount, hf b]
  | succ i' ih =>
    intro l
    cases l with
    | nil => rfl
    | cons b t => simp [setBall, nameCount, ih t]

/-- Writing a same-named ball at a hit index keeps every name's
multiplicity. -/
theorem nameCount_setBall_const {α : Type} (n : String) (c : Ball α) :
    ∀ (i : ℕ) (l : List (Ball α)) (b : Ball α), l[i]? = some b → c.name = b.name →
      nameCount n (setBall (fun _ => c) i l) = nameCount n l := by
  intro i
  induction i with
  | zero =>
    intro l b hl hn
    cases l with
    | nil => simp at hl
    | cons d t =>
      simp only [List.getElem?_cons_zero, Option.some.injEq] at hl
      simp [setBall, nameCount, hn, hl]
  | succ i' ih =>
    intro l b hl hn
    cases l with
    | nil => simp at hl
    | cons d t =>
      simp only [List.getElem?_cons_succ] at hl
      simp [setBall, nameCount, ih t b hl hn]

/-- Index-aware mapping by name-preserving functions keeps every name's
multiplicity. -/
theorem nameCount_mapIdxFrom {α : Type} (n : String) (f : ℕ → Ball α → Ball α)
    (hf : ∀ k b, (f k b).name = b.name) :
    ∀ (k : ℕ) (l : List (Ball α)), nameCount n (mapIdxFrom f k l) = nameCount n l := by
  intro k l
  induction l generalizing k with
  | nil => rfl
  | cons b t ih => simp [mapIdxFrom, nameCount, hf k b, ih (k + 1)]

/-- Mapping by a name-preserving function keeps every name's
multiplicity. -/
theorem nameCount_map {α : Type} (n : String) (f : Ball α → Ball α)
    (hf : ∀ b, (f b).name = b.name) :
    ∀ l : List (Ball α), nameCount n (List.map f l) = nameCount n l := by
  intro l
  induction l with
  | nil => rfl
  | cons b t ih => simp [nameCount, hf b, ih]

/-- turbStep does not rename balls. -/
theorem turbStep_name (ccx ccy R mult t : ℝ) (rnd : ℝ × ℝ × ℝ) (b : Ball ℝ) :
    (turbStep ccx ccy R mult t rnd b).name = b.name := by
  simp only [turbStep, limitSpeed, applyForce]
  split_ifs <;> rfl

/-- clampBall does not rename balls. -/
theorem clampBall_name (ccx ccy R : ℝ) (b : Ball ℝ) :
    (clampBall ccx ccy R b).name = b.name := by
  simp only [clampBall]
  split_ifs <;> rfl

/-- No engine operation increases the number of balls carrying a given
name: a frame update, a guidance tick and both ejection entry points only
rewrite balls in place or remove one. -/
theorem applyOp_nameCount_le (op : EngineOp) (st : SimState ℝ) (n : String) :
    nameCount n (applyOp op st).balls ≤ nameCount n st.balls := by
  cases op with
  | guide i =>
    simp only [applyOp, guideStep]
    rcases hb : st.balls[i]? with _ | b
    · exact le_refl _
    · by_cases hf : (steerBall st.exitChannel (st.containerCenter.2 - st.containerRadius)
          (st.exitChannel.width * 0.8) b).2
      · simp only [hf, if_true]
        exact nameCount_removeBall_le n i st.balls
      · simp only [hf, Bool.false_eq_true, if_false]
        exact le_of_eq (nameCount_setBall_const n _ i st.balls b hb
          (steerBall_name _ _ _ b))
  | upd npos nvel delta rnd =>
    simp only [applyOp, update]
    have h1 : nameCount n (solverStep npos nvel st).balls = nameCount n st.balls := by
      simp only [solverStep]
      exact nameCount_mapIdxFrom n
        (fun i b =>
          { b with
              x := (npos i).1, y := (npos i).2, vx := (nvel i).1,
              vy := (nvel i).2, fx := 0, fy := 0 })
        (fun _ _ => rfl) 0 st.balls
    have h2 : nameCount n (applyTurbulence delta rnd (solverStep npos nvel st)).balls =
        nameCount n (solverStep npos nvel st).balls := by
      by_cases hact : (solverStep npos nvel st).turbulenceActive = false
      · simp [applyTurbulence, hact]
      · simp only [applyTurbulence, if_neg hact]
        exact nameCount_mapIdxFrom n _ (fun k b => turbStep_name _ _ _ _ _ _ b) 0 _
    have h3 : nameCount n (clampPass (applyTurbulence delta rnd
        (solverStep npos nvel st))).balls =
        nameCount n (applyTurbulence delta rnd (solverStep npos nvel st)).balls := by
      by_cases hs : (applyTurbulence delta rnd (solverStep npos nvel st)).containerSealed
      · simp only [clampPass, if_pos hs]
        exact nameCount_map n _ (fun b => clampBall_name _ _ _ b) _
      · simp [clampPass, hs]
    rw [h3, h2, h1]
  | eject =>
    simp only [applyOp, ejectOneBall]
    rcases hbi : bestIdx (exitDist2 st) st.balls with _ | ⟨i, k⟩
    · exact le_refl _
    · exact le_of_eq (nameCount_setBall n markExiting (fun b => rfl) i st.balls)
  | ejectNamed m =>
    simp only [applyOp, ejectSpecificBall]
    rcases hfi : findEligibleNamed m st.balls with _ | i
    · exact le_refl _
    · exact le_of_eq (nameCount_setBall n markExiting (fun b => rfl) i st.balls)

/-- Over any sequence of engine operations a name's multiplicity never
grows: a removed ball can never reappear. -/
theorem applyOps_nameCount_le (ops : List EngineOp) (s : SimState ℝ) (n : String) :
    nameCount n (applyOps ops s).balls ≤ nameCount n s.balls := by
  induction ops generalizing s with
  | nil => exact le_refl _
  | cons op ops ih =>
    have hstep : applyOps (op :: ops) s = applyOps ops (applyOp op s) := rfl
    rw [hstep]
    exact le_trans (ih (applyOp op s)) (applyOp_nameCount_le op s n)

/-- In the upChannel phase, once the ball has risen past
exitChannel.topY - 30 the steer tick marks it hasExited and reports the exit
(after bumping the timer and accumulating the channel guidance force). -/
theorem steerBall_fires (ch : Channel ℝ) (enterY enterRadius : ℝ) (b : Ball ℝ)
    (hnx : b.hasExited = false) (hph : b.exitPhase = Phase.upChannel)
    (hy : b.y < ch.topY - 30) :
    steerBall ch enterY enterRadius b =
      ({ b with exitTimer := b.exitTimer + 16,
                fx := b.fx + (ch.x - b.x) * channelForceHorz,
                fy := b.fy + -channelForceUp,
                hasExited := true }, true) := by
  obtain ⟨nm, bx, byv, bvx, bvy, bfx, bfy, bex, bexd, bph, btm, bct, bmk, bfr, bfa, brs, bsd⟩ := b
  simp only at hnx hph hy ⊢
  subst hnx hph
  simp only [steerBall, applyForce]
  rw [if_neg (by simp : ¬ ((false : Bool) = true)), if_pos hy]

/-- Claim C2: when the guided ball reaches the exit condition (upChannel
phase, y above exitChannel.topY - 30), the guidance tick removes exactly that
one ball from the active collection and fires the completion callback once
with that ball's name; a completed ball's tick never changes state or fires
again; and no engine operation ever adds a ball back, so the removed ball
never reappears in any later step. -/
theorem guideStep_exit_exactly_once (st : SimState ℝ) (i : ℕ) (b : Ball ℝ)
    (hb : st.balls[i]? = some b) (hnx : b.hasExited = false)
    (hph : b.exitPhase = Phase.upChannel)
    (hy : b.y < st.exitChannel.topY - 30) :
    guideStep st i = ({ st with balls := removeBall i st.balls }, some b.name) ∧
    nameCount b.name (removeBall i st.balls) + 1 = nameCount b.name st.balls ∧
    (∀ (st' : SimState ℝ) (j : ℕ) (c : Ball ℝ), st'.balls[j]? = some c →
      c.hasExited = true → guideStep st' j = (st', Option.none)) ∧
    (∀ (ops : List EngineOp) (s : SimState ℝ) (n : String),
      nameCount n (applyOps ops s).balls ≤ nameCount n s.balls) := by
  refine ⟨?_, nameCount_removeBall_at b i st.balls hb, guideStep_exited,
    applyOps_nameCount_le⟩
  have hf := steerBall_fires st.exitChannel (st.containerCenter.2 - st.containerRadius)
    (st.exitChannel.width * 0.8) b hnx hph hy
  simp only [guideStep, hb, hf]
  rw [if_pos trivial]

/-- Claim C2 witness: the ball H of st2w satisfies the exit condition, so
its guidance tick removes it and reports its name. -/
theorem guideStep_exit_exactly_once_witness :
    st2w.balls[0]? = some (mkBallR2 "H" 0 (-250) 0 (-5) Phase.upChannel) ∧
    (mkBallR2 "H" 0 (-250) 0 (-5) Phase.upChannel).hasExited = false ∧
    (mkBallR2 "H" 0 (-250) 0 (-5) Phase.upChannel).exitPhase = Phase.upChannel ∧
    (mkBallR2 "H" 0 (-250) 0 (-5) Phase.upChannel).y < st2w.exitChannel.topY - 30 ∧
    guideStep st2w 0 =
      ({ st2w with balls := removeBall 0 st2w.balls },
        some (mkBallR2 "H" 0 (-250) 0 (-5) Phase.upChannel).name) := by
  have h1 : st2w.balls[0]? = some (mkBallR2 "H" 0 (-250) 0 (-5) Phase.upChannel) := by
    simp [st2w]
  have hy : (mkBallR2 "H" 0 (-250) 0 (-5) Phase.upChannel).y < st2w.exitChannel.topY - 30 := by
    show (-250 : ℝ) < (-180 : ℝ) - 30
    norm_num
  exact ⟨h1, rfl, rfl, hy, (guideStep_exit_exactly_once st2w 0 _ h1 rfl rfl hy).1⟩

/-- normalizeAngle is the identity on its fundamental interval. -/
theorem normalizeAngle_eq_self (x : ℝ) (h0 : 0 ≤ x) (h1 : x < 2 * Real.pi) :
    normalizeAngle x = x := by
  have h2pi : (0 : ℝ) < 2 * Real.pi := Real.two_pi_pos
  have hfl : ⌊x / (2 * Real.pi)⌋ = 0 := by
    rw [Int.floor_eq_zero_iff]
    exact ⟨div_nonneg h0 (le_of_lt h2pi), by rw [div_lt_one h2pi]; exact h1⟩
  simp [normalizeAngle, hfl]

/-- normalizeAngle always lands in the fundamental interval. -/
theorem normalizeAngle_mem (x : ℝ) :
    0 ≤ normalizeAngle x ∧ normalizeAngle x < 2 * Real.pi := by
  have h2pi : (0 : ℝ) < 2 * Real.pi := Real.two_pi_pos
  have hself : 2 * Real.pi * (x / (2 * Real.pi)) = x := by field_simp
  have heq : normalizeAngle x = 2 * Real.pi * Int.fract (x / (2 * Real.pi)) := by
    simp only [normalizeAngle, Int.fract]
    rw [mul_sub, hself]
  constructor
  · rw [heq]; exact mul_nonneg (le_of_lt h2pi) (Int.fract_nonneg _)
  · rw [heq]
    have := mul_lt_mul_of_pos_left (Int.fract_lt_one (x / (2 * Real.pi))) h2pi
    simpa using this

/-- Claim C7 (amended): for every layout whose channel half-width plus
margin fits in the radius, sin(exitGapHalfAngle) equals
(channelWidth/2 + margin)/radius; at radius 200 and ball radius 21 (channel
width 50) the half-angle is asin(49/200), which lies between 0.245 and
0.249 (so it is 0.2468 within 0.004); and the exit-gap and entry-gap ranges
cannot overlap whenever channelWidth/2 + margin is at most cos(0.8) times
the radius (equivalently, whenever the exit half-angle is at most
PI/2 - 0.8) — though not for every configuration fitting the radius. -/
theorem exitGap_sin_spec (r R : ℝ) (hR : 0 < R)
    (hfit : channelWidth r / 2 + EXIT_GAP_MARGIN ≤ R) :
    Real.sin (exitGapHalfAngle R (channelWidth r)) =
      (channelWidth r / 2 + EXIT_GAP_MARGIN) / R ∧
    (exitGapHalfAngle 200 (channelWidth 21) = Real.arcsin (49 / 200) ∧
      0.245 < exitGapHalfAngle 200 (channelWidth 21) ∧
      exitGapHalfAngle 200 (channelWidth 21) < 0.249) ∧
    (channelWidth r / 2 + EXIT_GAP_MARGIN ≤ Real.cos 0.8 * R →
      ∀ θ : ℝ, ¬ (angularDistance θ exitCenterAngle <
          exitGapHalfAngle R (channelWidth r) ∧
        angularDistance θ entryAngle < entryGapHalfAngle)) := by
  have hpi6 : (3.141592 : ℝ) < Real.pi := Real.pi_gt_d6
  have hpi6' : Real.pi < 3.141593 := Real.pi_lt_d6
  have hcw : (30 : ℝ) ≤ channelWidth r := le_max_left _ _
  have hnum : (0 : ℝ) ≤ channelWidth r / 2 + EXIT_GAP_MARGIN := by
    norm_num [EXIT_GAP_MARGIN]; linarith
  have hxnn : (0 : ℝ) ≤ (channelWidth r / 2 + EXIT_GAP_MARGIN) / R :=
    div_nonneg hnum (le_of_lt hR)
  have hcw21 : channelWidth 21 = 50 := by
    rw [channelWidth, show (21 : ℝ) * 2 + 8 = 50 by norm_num]
    exact max_eq_right (by norm_num)
  have heq21 : exitGapHalfAngle 200 (channelWidth 21) = Real.arcsin (49 / 200) := by
    rw [hcw21, exitGapHalfAngle,
      show ((50 : ℝ) / 2 + EXIT_GAP_MARGIN) / 200 = 49 / 200 by norm_num [EXIT_GAP_MARGIN]]
  refine ⟨?_, ⟨heq21, ?_, ?_⟩, ?_⟩
  · rw [exitGapHalfAngle]
    exact Real.sin_arcsin (le_trans (by norm_num) hxnn)
      ((div_le_one hR).mpr hfit)
  · rw [heq21]
    rw [Real.lt_arcsin_iff_sin_lt ⟨by linarith, by linarith⟩ (by norm_num)]
    have := Real.sin_lt (show (0 : ℝ) < 0.245 by norm_num)
    linarith
  · rw [heq21]
    rw [Real.arcsin_lt_iff_lt_sin (by norm_num) ⟨by linarith, by linarith⟩]
    have := Real.sin_gt_sub_cube (show (0 : ℝ) < 0.249 by norm_num)
      (by norm_num : (0.249 : ℝ) ≤ 1)
    nlinarith [this]
  · intro hcos θ hcontra
    obtain ⟨h1, h2⟩ := hcontra
    have hxle : (channelWidth r / 2 + EXIT_GAP_MARGIN) / R ≤ Real.cos 0.8 := by
      rw [div_le_iff hR]; exact hcos
    have hx1 : (channelWidth r / 2 + EXIT_GAP_MARGIN) / R ≤ 1 :=
      le_trans hxle (Real.cos_le_one _)
    have he_le : exitGapHalfAngle R (channelWidth r) ≤ Real.pi / 2 - 0.8 := by
      rw [exitGapHalfAngle]
      rw [Real.arcsin_le_iff_le_sin ⟨by linarith, hx1⟩ ⟨by linarith, by linarith⟩,
        Real.sin_pi_div_two_sub]
      exact hxle
    have hu := normalizeAngle_mem θ
    have hc1 : normalizeAngle exitCenterAngle = exitCenterAngle := by
      apply normalizeAngle_eq_self <;> rw [exitCenterAngle] <;> nlinarith
    have hc2 : normalizeAngle entryAngle = entryAngle := by
      apply normalizeAngle_eq_self <;> rw [entryAngle] <;> nlinarith
    rw [angularDistance, hc2, entryAngle, entryGapHalfAngle] at h2
    rw [angularDistance, hc1, exitCenterAngle] at h1
    split_ifs at h2 with hm2
    · have habs : |normalizeAngle θ - (Real.pi + 0.4)| ≤ Real.pi + 0.4 := by
        rw [abs_le]; constructor <;> linarith [hu.1, hu.2]
      linarith
    · have hb2 := abs_lt.mp h2
      split_ifs at h1 with hm1
      · have habs : |normalizeAngle θ - 3 * Real.pi / 2| ≤ 3 * Real.pi / 2 := by
          rw [abs_le]; constructor <;> linarith [hu.1, hu.2]
        linarith
      · have hb1 := abs_lt.mp h1
        linarith [hb1.1, hb2.2, he_le]

/-- Claim C7 counterexample: at containerRadius 50 with configBallRadius 11
(channel width 30, so the claim's own fit condition 39 <= 50 holds), the
angle PI + 0.79 lies strictly inside BOTH the entry-gap range and the
exit-gap range: the two gaps' angular ranges overlap for this valid
configuration. -/
theorem gap_overlap_counterexample :
    channelWidth 11 = 30 ∧
    channelWidth 11 / 2 + EXIT_GAP_MARGIN ≤ (50 : ℝ) ∧
    angularDistance (Real.pi + 0.79) entryAngle < entryGapHalfAngle ∧
    angularDistance (Real.pi + 0.79) exitCenterAngle <
      exitGapHalfAngle 50 (channelWidth 11) := by
  have hpi6 : (3.141592 : ℝ) < Real.pi := Real.pi_gt_d6
  have hpi6' : Real.pi < 3.141593 := Real.pi_lt_d6
  have hcw11 : channelWidth 11 = 30 := by
    rw [channelWidth, show (11 : ℝ) * 2 + 8 = 30 by norm_num]
    exact max_eq_left (by norm_num)
  have hnθ : normalizeAngle (Real.pi + 0.79) = Real.pi + 0.79 := by
    apply normalizeAngle_eq_self <;> nlinarith
  have hc1 : normalizeAngle exitCenterAngle = exitCenterAngle := by
    apply normalizeAngle_eq_self <;> rw [exitCenterAngle] <;> nlinarith
  have hc2 : normalizeAngle entryAngle = entryAngle := by
    apply normalizeAngle_eq_self <;> rw [entryAngle] <;> nlinarith
  refine ⟨hcw11, ?_, ?_, ?_⟩
  · rw [hcw11]; norm_num [EXIT_GAP_MARGIN]
  · rw [angularDistance, hnθ, hc2, entryAngle, entryGapHalfAngle]
    have habs : |Real.pi + 0.79 - (Real.pi + 0.4)| = (0.39 : ℝ) := by
      rw [show Real.pi + 0.79 - (Real.pi + 0.4) = (0.39 : ℝ) by ring]
      exact abs_of_pos (by norm_num)
    rw [habs, if_neg (by linarith)]
    norm_num
  · rw [angularDistance, hnθ, hc1, exitCenterAngle, hcw11]
    have habs : |Real.pi + 0.79 - 3 * Real.pi / 2| = Real.pi / 2 - 0.79 := by
      rw [abs_of_nonpos (by linarith)]; ring
    rw [habs, if_neg (by linarith)]
    rw [exitGapHalfAngle,
      show ((30 : ℝ) / 2 + EXIT_GAP_MARGIN) / 50 = 0.78 by norm_num [EXIT_GAP_MARGIN]]
    rw [Real.lt_arcsin_iff_sin_lt ⟨by linarith, by linarith⟩ (by norm_num),
      Real.sin_pi_div_two_sub]
    have hcm := Real.cos_two_mul 0.395
    have hpy := Real.sin_sq_add_cos_sq (0.395 : ℝ)
    have hs := Real.sin_gt_sub_cube (show (0 : ℝ) < 0.395 by norm_num)
      (by norm_num : (0.395 : ℝ) ≤ 1)
    have ha : (0.3795 : ℝ) < Real.sin 0.395 := by nlinarith [hs]
    have ha2 : (0.3795 : ℝ) ^ 2 < Real.sin 0.395 ^ 2 := by nlinarith [ha]
    rw [show (0.79 : ℝ) = 2 * 0.395 by norm_num, hcm]
    nlinarith [hpy, ha2]

/-- Claim C7 witness: the standard scenario radius 200, ball radius 21
(channel width 50, margin 24) satisfies the fit condition and also the
amended no-overlap condition 49 <= cos(0.8)·200. -/
theorem exitGap_sin_spec_witness :
    (0 : ℝ) < 200 ∧ channelWidth 21 / 2 + EXIT_GAP_MARGIN ≤ (200 : ℝ) ∧
    Real.sin (exitGapHalfAngle 200 (channelWidth 21)) =
      (channelWidth 21 / 2 + EXIT_GAP_MARGIN) / 200 ∧
    exitGapHalfAngle 200 (channelWidth 21) = Real.arcsin (49 / 200) ∧
    0.245 < exitGapHalfAngle 200 (channelWidth 21) ∧
    exitGapHalfAngle 200 (channelWidth 21) < 0.249 := by
  have hcw21 : channelWidth 21 = 50 := by
    rw [channelWidth, show (21 : ℝ) * 2 + 8 = 50 by norm_num]
    exact max_eq_right (by norm_num)
  have hfit : channelWidth 21 / 2 + EXIT_GAP_MARGIN ≤ (200 : ℝ) := by
    rw [hcw21]; norm_num [EXIT_GAP_MARGIN]
  have h := exitGap_sin_spec 21 200 (by norm_num) hfit
  exact ⟨by norm_num, hfit, h.1, h.2.1.1, h.2.1.2.1, h.2.1.2.2⟩

end Lottery
